import Mathlib

/-
Shallow embedding of src/libosmocore/src/core/netdev.c.

The C module manages:
  - a process-wide pool of refcounted network-namespace contexts
    (struct netdev_netns_ctx, g_netdev_netns_ctx_list);
  - a process-wide registry of interface handles (struct osmo_netdev,
    g_netdev_list);
  - scoped namespace switching around backend calls via the macros
    NETDEV_NETNS_ENTER / NETDEV_NETNS_EXIT.

Modelling conventions:
  - The two global linked lists and the call trace of external side effects
    form one explicit state record, GState.  llist_add_tail is list append;
    llist_del of a node is removal by its unique allocation id (ids play the
    role of pointer identity; they are handed out by monotone counters, so
    they are unique among live objects).
  - External collaborators that are not part of this translation unit
    (osmo_netns_open_fd, osmo_netns_switch_enter, osmo_netns_switch_exit,
    if_indextoname) have their return values supplied by explicit oracle
    arguments; every call to one of them is recorded in the trace so that
    "no namespace switch was attempted" is a statement about the state.
  - talloc allocation is modelled as always succeeding.
  - C unsigned arithmetic on refcount is modelled as exact Nat arithmetic
    (the 2^32 wraparound is unreachable for any realistic object count);
    refcount-- is Nat truncated subtraction.
  - A NULL char pointer is Option.none; the C `char *netns_name` field that
    is NULL for the default netns is `Option String`.
  - int return codes are Int; the errno constants carry their Linux values.
-/

namespace NetdevSpec

def EALREADY : Int := 114

def EFAULT : Int := 14

def EACCES : Int := 13

def ENODEV : Int := 19

def ENOTSUP : Int := 95

/-- A recorded call to an external collaborator (side effect outside this
translation unit): entering a netns (osmo_netns_switch_enter on a given fd),
leaving it again (osmo_netns_switch_exit), closing a netns fd (close), and
resolving an ifindex to a name (if_indextoname). -/
inductive Event where
  | ns_enter (fd : Int)
  | ns_exit
  | fd_close (fd : Int)
  | if_resolve (ifindex : Nat)
deriving DecidableEq

/-- struct netdev_netns_ctx: one shared, refcounted context per netns name. -/
structure NetnsCtx where
  ctx_id : Nat
  netns_name : String
  netns_fd : Int
  refcount : Nat
deriving DecidableEq

/-- struct osmo_netdev: one interface handle.  The three callback pointers
are modelled only by whether they are set (they are never invoked in this
translation unit); priv_data is an opaque word. -/
structure Netdev where
  nd_id : Nat
  netns_ctx : Option Nat
  name : String
  ifindex : Nat
  dev_name : Option String
  netns_name : Option String
  priv_data : Nat
  registered : Bool
  has_ifupdown_ind_cb : Bool
  has_dev_name_chg_cb : Bool
  has_mtu_chg_cb : Bool
  if_up : Bool
  if_up_known : Bool
  if_mtu : Nat
  if_mtu_known : Bool
deriving DecidableEq

/-- The process-wide state: g_netdev_netns_ctx_list, g_netdev_list, the two
allocation counters providing pointer identity, and the trace of external
calls performed so far. -/
structure GState where
  netns_ctx_list : List NetnsCtx
  netdev_list : List Netdev
  next_ctx_id : Nat
  next_nd_id : Nat
  trace : List Event
deriving DecidableEq

def init_state : GState :=
  { netns_ctx_list := [], netdev_list := [], next_ctx_id := 0, next_nd_id := 0, trace := [] }

/-- Find the first list element with the given key (pointer lookup by id). -/
def find_by {α : Type} (key : α → Nat) (k : Nat) (l : List α) : Option α :=
  l.find? (fun x => key x == k)

/-- Update the list elements with the given key in place. -/
def upd_by {α : Type} (key : α → Nat) (k : Nat) (g : α → α) (l : List α) : List α :=
  l.map (fun x => if key x == k then g x else x)

/-- Remove the list elements with the given key (llist_del of that node). -/
def remove_by {α : Type} (key : α → Nat) (k : Nat) (l : List α) : List α :=
  l.filter (fun x => !(key x == k))

def ctx_find_id (s : GState) (cid : Nat) : Option NetnsCtx :=
  find_by NetnsCtx.ctx_id cid s.netns_ctx_list

def nd_find (s : GState) (nid : Nat) : Option Netdev :=
  find_by Netdev.nd_id nid s.netdev_list

/-- Write back a mutated netns_ctx (C writes through the pointer). -/
def write_ctx (s : GState) (c : NetnsCtx) : GState :=
  { s with netns_ctx_list := upd_by NetnsCtx.ctx_id c.ctx_id (fun _ => c) s.netns_ctx_list }

/-- Write back a mutated netdev (C writes through the pointer). -/
def write_netdev (s : GState) (nd : Netdev) : GState :=
  { s with netdev_list := upd_by Netdev.nd_id nd.nd_id (fun _ => nd) s.netdev_list }

/-- netns_ctx->refcount++ . -/
def ctx_incref (s : GState) (cid : Nat) : GState :=
  { s with netns_ctx_list :=
      upd_by NetnsCtx.ctx_id cid (fun c => { c with refcount := c.refcount + 1 }) s.netns_ctx_list }

/-- netdev_netns_ctx_alloc: talloc_zero + netns_fd = -1 + llist_add_tail.
Returns the new context id (its pointer). -/
def netdev_netns_ctx_alloc (s : GState) (nm : String) : GState × Nat :=
  ({ s with
      netns_ctx_list := s.netns_ctx_list ++
        [{ ctx_id := s.next_ctx_id, netns_name := nm, netns_fd := -1, refcount := 0 }],
      next_ctx_id := s.next_ctx_id + 1 }, s.next_ctx_id)

/-- netdev_netns_ctx_free: llist_del, close(netns_fd) when it is not -1,
talloc_free.  Calling it on an id not in the pool is the NULL case. -/
def netdev_netns_ctx_free (s : GState) (cid : Nat) : GState :=
  match ctx_find_id s cid with
  | none => s
  | some c =>
    let s2 := { s with netns_ctx_list := remove_by NetnsCtx.ctx_id cid s.netns_ctx_list }
    if c.netns_fd = -1 then s2 else { s2 with trace := s2.trace ++ [Event.fd_close c.netns_fd] }

/-- Oracle for one run of netdev_netns_ctx_init: the results of
osmo_netns_open_fd, the validation osmo_netns_switch_enter and the
osmo_netns_switch_exit back. -/
structure InitOracle where
  open_fd : Int
  enter_rc : Int
  exit_rc : Int
deriving DecidableEq

/-- netdev_netns_ctx_init: for a non-empty netns name, open the netns fd
(storing it in the ctx even when negative, as the C does), then validate by
switching into the netns and back out.  For the empty name all of this is
skipped and 0 is returned. -/
def netdev_netns_ctx_init (s : GState) (cid : Nat) (o : InitOracle) : GState × Int :=
  match ctx_find_id s cid with
  | none => (s, 0)
  | some c =>
    if c.netns_name = "" then (s, 0)
    else
      let s2 := write_ctx s { c with netns_fd := o.open_fd }
      if o.open_fd < 0 then (s2, o.open_fd)
      else
        let s3 := { s2 with trace := s2.trace ++ [Event.ns_enter o.open_fd] }
        if o.enter_rc < 0 then (s3, o.enter_rc)
        else
          let s4 := { s3 with trace := s3.trace ++ [Event.ns_exit] }
          if o.exit_rc < 0 then (s4, o.exit_rc) else (s4, 0)

/-- netdev_netns_ctx_find_by_netns_name: first pool entry with that name. -/
def netdev_netns_ctx_find_by_netns_name (s : GState) (nm : String) : Option NetnsCtx :=
  s.netns_ctx_list.find? (fun c => c.netns_name == nm)

/-- netdev_netns_ctx_get: find or lazily create the shared context for a
netns name, tearing a freshly created one down again when its init fails;
on success increment its refcount and return it. -/
def netdev_netns_ctx_get (s : GState) (nm : String) (o : InitOracle) : GState × Option Nat :=
  match netdev_netns_ctx_find_by_netns_name s nm with
  | some c => (ctx_incref s c.ctx_id, some c.ctx_id)
  | none =>
    let a := netdev_netns_ctx_alloc s nm
    let r := netdev_netns_ctx_init a.1 a.2 o
    if r.2 < 0 then (netdev_netns_ctx_free r.1 a.2, none)
    else (ctx_incref r.1 a.2, some a.2)

/-- netdev_netns_ctx_put: decrement the refcount, free the context when it
reaches zero. -/
def netdev_netns_ctx_put (s : GState) (cid : Nat) : GState :=
  match ctx_find_id s cid with
  | none => s
  | some c =>
    let c2 := { c with refcount := c.refcount - 1 }
    let s2 := write_ctx s c2
    if c2.refcount = 0 then netdev_netns_ctx_free s2 cid else s2

/-- (netdev)->netns_ctx->netns_fd, the fd passed to osmo_netns_switch_enter
by NETDEV_NETNS_ENTER.  The none cases are NULL dereferences in C and are
unreachable from states the claims quantify over. -/
def ctx_fd (s : GState) (cid : Nat) : Int :=
  match ctx_find_id s cid with
  | some c => c.netns_fd
  | none => -1

def nd_ctx_fd (s : GState) (nd : Netdev) : Int :=
  match nd.netns_ctx with
  | some cid => ctx_fd s cid
  | none => -1

/-- NETDEV_NETNS_ENTER: when netns_name is non-NULL (note: also when it is
the empty string), call osmo_netns_switch_enter on the context fd; a
negative result makes the enclosing function return -EACCES (modelled as
`some (-EACCES)` meaning early return with that value). -/
def netns_enter_step (s : GState) (nd : Netdev) (enter_rc : Int) : GState × Option Int :=
  if nd.netns_name.isSome then
    let s2 := { s with trace := s.trace ++ [Event.ns_enter (nd_ctx_fd s nd)] }
    if enter_rc < 0 then (s2, some (-EACCES)) else (s2, none)
  else (s, none)

/-- NETDEV_NETNS_EXIT: when netns_name is non-NULL, call
osmo_netns_switch_exit; a negative result rc2 makes the enclosing function
return rc2 itself (early return). -/
def netns_exit_step (s : GState) (nd : Netdev) (exit_rc : Int) : GState × Option Int :=
  if nd.netns_name.isSome then
    let s2 := { s with trace := s.trace ++ [Event.ns_exit] }
    if exit_rc < 0 then (s2, some exit_rc) else (s2, none)
  else (s, none)

/-- osmo_netdev_alloc: talloc_zero + llist_add_tail; returns the handle id. -/
def osmo_netdev_alloc (s : GState) (nm : String) : GState × Nat :=
  ({ s with
      netdev_list := s.netdev_list ++
        [{ nd_id := s.next_nd_id, netns_ctx := none, name := nm, ifindex := 0,
           dev_name := none, netns_name := none, priv_data := 0, registered := false,
           has_ifupdown_ind_cb := false, has_dev_name_chg_cb := false,
           has_mtu_chg_cb := false, if_up := false, if_up_known := false,
           if_mtu := 0, if_mtu_known := false }],
      next_nd_id := s.next_nd_id + 1 }, s.next_nd_id)

/-- osmo_netdev_is_registered. -/
def osmo_netdev_is_registered (s : GState) (nid : Nat) : Bool :=
  match nd_find s nid with
  | some nd => nd.registered
  | none => false

/-- Oracle for one run of osmo_netdev_register: the InitOracle consumed if a
fresh context must be created, the osmo_netns_switch_enter result, the
if_indextoname result (none = interface does not exist) and the
osmo_netns_switch_exit result. -/
structure RegOracle where
  ctx_init : InitOracle
  enter_rc : Int
  resolve : Option String
  exit_rc : Int
deriving DecidableEq

/-- osmo_netdev_register, transcribed with the NETDEV_NETNS_ENTER /
NETDEV_NETNS_EXIT macros expanded to netns_enter_step / netns_exit_step
(a `some err` second component is the macro's early return).  Calling it
on an id not in the registry is undefined in C and modelled as a no-op. -/
def osmo_netdev_register (s : GState) (nid : Nat) (o : RegOracle) : GState × Int :=
  match nd_find s nid with
  | none => (s, 0)
  | some nd =>
    if nd.registered then (s, -EALREADY)
    else
      match netdev_netns_ctx_get s (nd.netns_name.getD "") o.ctx_init with
      | (s1, none) => (write_netdev s1 { nd with netns_ctx := none }, -EFAULT)
      | (s1, some cid) =>
        let nd1 := { nd with netns_ctx := some cid }
        let s1b := write_netdev s1 nd1
        match netns_enter_step s1b nd1 o.enter_rc with
        | (s2, some err) => (s2, err)
        | (s2, none) =>
          let s2b := { s2 with trace := s2.trace ++ [Event.if_resolve nd1.ifindex] }
          match o.resolve with
          | none =>
            match netns_exit_step s2b nd1 o.exit_rc with
            | (s3, some err) => (s3, err)
            | (s3, none) => (netdev_netns_ctx_put s3 cid, -ENODEV)
          | some devnm =>
            let nd2 := { nd1 with dev_name := some devnm }
            let s3 := write_netdev s2b nd2
            match netns_exit_step s3 nd2 o.exit_rc with
            | (s4, some err) => (s4, err)
            | (s4, none) => (write_netdev s4 { nd2 with registered := true }, 0)

/-- osmo_netdev_unregister. -/
def osmo_netdev_unregister (s : GState) (nid : Nat) : GState × Int :=
  match nd_find s nid with
  | none => (s, 0)
  | some nd =>
    if nd.registered = false then (s, -EALREADY)
    else
      let nd1 := { nd with if_up_known := false, if_mtu_known := false }
      let s1 := write_netdev s nd1
      let s2 :=
        match nd1.netns_ctx with
        | some cid => netdev_netns_ctx_put s1 cid
        | none => s1
      (write_netdev s2 { nd1 with registered := false }, 0)

/-- osmo_netdev_free: implicit unregister when registered, llist_del,
talloc_free. -/
def osmo_netdev_free (s : GState) (nid : Nat) : GState :=
  match nd_find s nid with
  | none => s
  | some nd =>
    let s1 := if nd.registered then (osmo_netdev_unregister s nid).1 else s
    { s1 with netdev_list := remove_by Netdev.nd_id nid s1.netdev_list }

/-- osmo_netdev_set_ifindex. -/
def osmo_netdev_set_ifindex (s : GState) (nid : Nat) (ifindex : Nat) : GState × Int :=
  match nd_find s nid with
  | none => (s, 0)
  | some nd =>
    if nd.registered then (s, -EALREADY)
    else (write_netdev s { nd with ifindex := ifindex }, 0)

/-- osmo_netdev_set_netns_name (osmo_talloc_replace_string; a none argument
clears the field back to NULL). -/
def osmo_netdev_set_netns_name (s : GState) (nid : Nat) (nm : Option String) : GState × Int :=
  match nd_find s nid with
  | none => (s, 0)
  | some nd =>
    if nd.registered then (s, -EALREADY)
    else (write_netdev s { nd with netns_name := nm }, 0)

/-- osmo_netdev_set_priv_data. -/
def osmo_netdev_set_priv_data (s : GState) (nid : Nat) (p : Nat) : GState :=
  match nd_find s nid with
  | none => s
  | some nd => write_netdev s { nd with priv_data := p }

/-- Oracle for one interface operation: results of the
osmo_netns_switch_enter and osmo_netns_switch_exit bracketing it. -/
structure OpOracle where
  enter_rc : Int
  exit_rc : Int
deriving DecidableEq

/-- osmo_netdev_ifupdown: requires registered, brackets the (absent,
--enable-libmnl not set) backend call with the netns switch macros; the
bracketed body just sets rc = -ENOTSUP. -/
def osmo_netdev_ifupdown (s : GState) (nid : Nat) (o : OpOracle) (updown : Bool) : GState × Int :=
  match nd_find s nid with
  | none => (s, 0)
  | some nd =>
    if nd.registered = false then (s, -ENODEV)
    else
      match netns_enter_step s nd o.enter_rc with
      | (s1, some err) => (s1, err)
      | (s1, none) =>
        match netns_exit_step s1 nd o.exit_rc with
        | (s2, some err) => (s2, err)
        | (s2, none) => (s2, -ENOTSUP)

/-- osmo_netdev_add_addr: same structure as osmo_netdev_ifupdown; the
address and prefix length are only logged. -/
def osmo_netdev_add_addr (s : GState) (nid : Nat) (o : OpOracle) (addr : Nat)
    (prefixlen : Nat) : GState × Int :=
  match nd_find s nid with
  | none => (s, 0)
  | some nd =>
    if nd.registered = false then (s, -ENODEV)
    else
      match netns_enter_step s nd o.enter_rc with
      | (s1, some err) => (s1, err)
      | (s1, none) =>
        match netns_exit_step s1 nd o.exit_rc with
        | (s2, some err) => (s2, err)
        | (s2, none) => (s2, -ENOTSUP)

/-- osmo_netdev_add_route: same structure as osmo_netdev_ifupdown; the
destination, prefix length and optional gateway are only logged. -/
def osmo_netdev_add_route (s : GState) (nid : Nat) (o : OpOracle) (dst : Nat)
    (dst_prefixlen : Nat) (gw : Option Nat) : GState × Int :=
  match nd_find s nid with
  | none => (s, 0)
  | some nd =>
    if nd.registered = false then (s, -ENODEV)
    else
      match netns_enter_step s nd o.enter_rc with
      | (s1, some err) => (s1, err)
      | (s1, none) =>
        match netns_exit_step s1 nd o.exit_rc with
        | (s2, some err) => (s2, err)
        | (s2, none) => (s2, -ENOTSUP)

/-- One public API call together with its oracle inputs, for quantifying
over arbitrary interleavings of operations. -/
inductive Op where
  | op_alloc (nm : String)
  | op_free (nid : Nat)
  | op_register (nid : Nat) (o : RegOracle)
  | op_unregister (nid : Nat)
  | op_set_ifindex (nid : Nat) (ifindex : Nat)
  | op_set_netns_name (nid : Nat) (nm : Option String)
  | op_set_priv_data (nid : Nat) (p : Nat)
  | op_ifupdown (nid : Nat) (o : OpOracle) (b : Bool)
  | op_add_addr (nid : Nat) (o : OpOracle) (addr : Nat) (plen : Nat)
  | op_add_route (nid : Nat) (o : OpOracle) (dst : Nat) (plen : Nat) (gw : Option Nat)

def applyOp (s : GState) : Op → GState
  | Op.op_alloc nm => (osmo_netdev_alloc s nm).1
  | Op.op_free nid => osmo_netdev_free s nid
  | Op.op_register nid o => (osmo_netdev_register s nid o).1
  | Op.op_unregister nid => (osmo_netdev_unregister s nid).1
  | Op.op_set_ifindex nid i => (osmo_netdev_set_ifindex s nid i).1
  | Op.op_set_netns_name nid nm => (osmo_netdev_set_netns_name s nid nm).1
  | Op.op_set_priv_data nid p => osmo_netdev_set_priv_data s nid p
  | Op.op_ifupdown nid o b => (osmo_netdev_ifupdown s nid o b).1
  | Op.op_add_addr nid o a p => (osmo_netdev_add_addr s nid o a p).1
  | Op.op_add_route nid o d p g => (osmo_netdev_add_route s nid o d p g).1

/-- Run a sequence of public operations from process start. -/
def runOps (ops : List Op) : GState :=
  ops.foldl applyOp init_state

/-! Basic lemmas about keyed list access. -/

theorem find_by_upd_self {α : Type} (key : α → Nat) (k : Nat) (g : α → α) (l : List α)
    (hg : ∀ x, key x = k → key (g x) = k) :
    find_by key k (upd_by key k g l) = (find_by key k l).map g := by
  induction l with
  | nil => rfl
  | cons a t ih =>
    simp only [upd_by, List.map_cons, find_by] at ih ⊢
    by_cases hk : key a = k
    · rw [if_pos (by simpa using hk), List.find?_cons_of_pos _ (by simpa using hg a hk),
        List.find?_cons_of_pos _ (by simpa using hk)]
      rfl
    · rw [if_neg (by simpa using hk), List.find?_cons_of_neg _ (by simpa using hk),
        List.find?_cons_of_neg _ (by simpa using hk), ih]

theorem find_by_remove_self {α : Type} (key : α → Nat) (k : Nat) (l : List α) :
    find_by key k (remove_by key k l) = none := by
  rw [find_by, List.find?_eq_none]
  intro x hx
  have h2 := (List.mem_filter.mp hx).2
  simpa using h2

theorem upd_by_upd_by_self {α : Type} (key : α → Nat) (k : Nat) (g1 g2 : α → α) (l : List α)
    (hg : ∀ x, key x = k → key (g1 x) = k) :
    upd_by key k g2 (upd_by key k g1 l) = upd_by key k (fun x => g2 (g1 x)) l := by
  simp only [upd_by, List.map_map]
  apply List.map_congr_left
  intro x _
  by_cases hk : key x = k
  · simp [Function.comp, hk, hg x hk]
  · simp [Function.comp, hk]

theorem remove_by_upd_self {α : Type} (key : α → Nat) (k : Nat) (g : α → α) (l : List α)
    (hg : ∀ x, key x = k → key (g x) = k) :
    remove_by key k (upd_by key k g l) = remove_by key k l := by
  induction l with
  | nil => rfl
  | cons a t ih =>
    simp only [upd_by, remove_by, List.map_cons] at ih ⊢
    by_cases hk : key a = k
    · rw [if_pos (by simpa using hk)]
      rw [List.filter_cons_of_neg (by simp [hg a hk]), List.filter_cons_of_neg (by simp [hk])]
      exact ih
    · rw [if_neg (by simpa using hk)]
      rw [List.filter_cons_of_pos (by simp [hk]), List.filter_cons_of_pos (by simp [hk])]
      exact congrArg (a :: ·) ih

theorem mem_upd_by {α : Type} (key : α → Nat) (k : Nat) (g : α → α) (l : List α) (x : α)
    (hx : x ∈ upd_by key k g l) :
    ∃ y ∈ l, x = if key y == k then g y else y := by
  simp only [upd_by, List.mem_map] at hx
  obtain ⟨y, hy, he⟩ := hx
  exact ⟨y, hy, he.symm⟩

theorem find_by_eq_some {α : Type} (key : α → Nat) (k : Nat) (l : List α) (c : α)
    (h : find_by key k l = some c) : c ∈ l ∧ key c = k := by
  refine ⟨List.mem_of_find?_eq_some h, ?_⟩
  have h2 := List.find?_some h
  simpa using h2

/-! The pool invariant of claim C4 and its preservation. -/

/-- Two pool entries are separate objects: distinct ids (pointer identity)
and distinct netns names. -/
def CtxDisj (a b : NetnsCtx) : Prop :=
  a.ctx_id ≠ b.ctx_id ∧ a.netns_name ≠ b.netns_name

theorem ctxDisj_symm : Symmetric CtxDisj := by
  intro a b h
  exact ⟨fun e => h.1 e.symm, fun e => h.2 e.symm⟩

/-- Pool invariant: pairwise distinct ids and netns names, every pool entry
has a positive refcount, and all ids are below the allocation counter. -/
def poolInv (s : GState) : Prop :=
  s.netns_ctx_list.Pairwise CtxDisj ∧
  ∀ c ∈ s.netns_ctx_list, 0 < c.refcount ∧ c.ctx_id < s.next_ctx_id

theorem poolInv_of_eq (s t : GState) (hl : s.netns_ctx_list = t.netns_ctx_list)
    (hn : s.next_ctx_id = t.next_ctx_id) (ht : poolInv t) : poolInv s := by
  unfold poolInv at ht ⊢
  rw [hl, hn]
  exact ht

theorem ctx_id_unique (l : List NetnsCtx) (hp : l.Pairwise CtxDisj) (a b : NetnsCtx)
    (ha : a ∈ l) (hb : b ∈ l) (h : a.ctx_id = b.ctx_id) : a = b := by
  by_contra hne
  exact (hp.forall ctxDisj_symm ha hb hne).1 h

theorem pairwise_ctx_upd (l : List NetnsCtx) (k : Nat) (g : NetnsCtx → NetnsCtx)
    (hp : l.Pairwise CtxDisj)
    (hg : ∀ x ∈ l, x.ctx_id = k →
      (g x).ctx_id = x.ctx_id ∧ (g x).netns_name = x.netns_name) :
    (upd_by NetnsCtx.ctx_id k g l).Pairwise CtxDisj := by
  rw [upd_by, List.pairwise_map]
  refine hp.imp_of_mem ?_
  intro a b ha hb hab
  by_cases hak : a.ctx_id = k <;> by_cases hbk : b.ctx_id = k
  · exact absurd (hak.trans hbk.symm) hab.1
  · obtain ⟨h1, h2⟩ := hg a ha hak
    rw [if_pos (show (a.ctx_id == k) = true by simpa using hak),
      if_neg (show ¬((b.ctx_id == k) = true) by simpa using hbk)]
    exact ⟨fun e => hab.1 (h1.symm.trans e), fun e => hab.2 (h2.symm.trans e)⟩
  · obtain ⟨h1, h2⟩ := hg b hb hbk
    rw [if_neg (show ¬((a.ctx_id == k) = true) by simpa using hak),
      if_pos (show (b.ctx_id == k) = true by simpa using hbk)]
    exact ⟨fun e => hab.1 (e.trans h1), fun e => hab.2 (e.trans h2)⟩
  · rw [if_neg (show ¬((a.ctx_id == k) = true) by simpa using hak),
      if_neg (show ¬((b.ctx_id == k) = true) by simpa using hbk)]
    exact hab

/-- Evaluation of netdev_netns_ctx_free at a context present in the pool. -/
theorem free_eval (s : GState) (cid : Nat) (c : NetnsCtx)
    (hc : ctx_find_id s cid = some c) :
    netdev_netns_ctx_free s cid =
      if c.netns_fd = -1 then
        { s with netns_ctx_list := remove_by NetnsCtx.ctx_id cid s.netns_ctx_list }
      else
        { s with netns_ctx_list := remove_by NetnsCtx.ctx_id cid s.netns_ctx_list,
                 trace := s.trace ++ [Event.fd_close c.netns_fd] } := by
  unfold netdev_netns_ctx_free
  rw [hc]

/-- Evaluation of netdev_netns_ctx_put at a context present in the pool. -/
theorem put_eval (s : GState) (cid : Nat) (c : NetnsCtx)
    (hc : ctx_find_id s cid = some c) :
    netdev_netns_ctx_put s cid =
      if c.refcount - 1 = 0 then
        (if c.netns_fd = -1 then
          { s with netns_ctx_list := remove_by NetnsCtx.ctx_id cid s.netns_ctx_list }
        else
          { s with netns_ctx_list := remove_by NetnsCtx.ctx_id cid s.netns_ctx_list,
                   trace := s.trace ++ [Event.fd_close c.netns_fd] })
      else
        { s with
            netns_ctx_list :=
              upd_by NetnsCtx.ctx_id cid (fun _ => { c with refcount := c.refcount - 1 })
                s.netns_ctx_list } := by
  obtain ⟨hmem, hcid⟩ := find_by_eq_some _ _ _ _ hc
  obtain ⟨ci, cn, cf, cr⟩ := c
  simp only at hcid
  subst hcid
  have hc2 : find_by NetnsCtx.ctx_id ci s.netns_ctx_list = some ⟨ci, cn, cf, cr⟩ := hc
  have hfind2 : ctx_find_id (write_ctx s ⟨ci, cn, cf, cr - 1⟩) ci =
      some ⟨ci, cn, cf, cr - 1⟩ := by
    have e1 := find_by_upd_self NetnsCtx.ctx_id ci
      (fun _ => (⟨ci, cn, cf, cr - 1⟩ : NetnsCtx)) s.netns_ctx_list (fun x _ => rfl)
    show find_by NetnsCtx.ctx_id ci
      (upd_by NetnsCtx.ctx_id ci (fun _ => (⟨ci, cn, cf, cr - 1⟩ : NetnsCtx))
        s.netns_ctx_list) = _
    rw [e1, hc2]
    rfl
  unfold netdev_netns_ctx_put
  rw [hc]
  dsimp only
  by_cases hz : cr - 1 = 0
  · rw [if_pos hz, if_pos hz, free_eval _ _ _ hfind2]
    dsimp only [write_ctx]
    rw [remove_by_upd_self NetnsCtx.ctx_id ci
      (fun _ => (⟨ci, cn, cf, cr - 1⟩ : NetnsCtx)) s.netns_ctx_list (fun x _ => rfl)]
  · rw [if_neg hz, if_neg hz]
    dsimp only [write_ctx]

theorem upd_by_no_match {α : Type} (key : α → Nat) (k : Nat) (g : α → α) (l : List α)
    (h : ∀ x ∈ l, key x ≠ k) : upd_by key k g l = l := by
  unfold upd_by
  have e : ∀ x ∈ l, (if key x == k then g x else x) = x := by
    intro x hx
    rw [if_neg (by simpa using h x hx)]
  rw [List.map_congr_left e]
  simp

/-- What netdev_netns_ctx_init can do to the pool: nothing, or store the
opened fd into the context it was called on.  The allocation counter is
never touched. -/
theorem init_result_cases (s : GState) (cid : Nat) (o : InitOracle) :
    (netdev_netns_ctx_init s cid o).1.next_ctx_id = s.next_ctx_id ∧
    ((netdev_netns_ctx_init s cid o).1.netns_ctx_list = s.netns_ctx_list ∨
     ∃ c, ctx_find_id s cid = some c ∧
       (netdev_netns_ctx_init s cid o).1.netns_ctx_list =
         upd_by NetnsCtx.ctx_id c.ctx_id (fun _ => { c with netns_fd := o.open_fd })
           s.netns_ctx_list) := by
  unfold netdev_netns_ctx_init
  cases hc : ctx_find_id s cid with
  | none => exact ⟨rfl, Or.inl rfl⟩
  | some c =>
    dsimp only
    by_cases hnm : c.netns_name = ""
    · rw [if_pos hnm]
      exact ⟨rfl, Or.inl rfl⟩
    · rw [if_neg hnm]
      refine ⟨?_, Or.inr ⟨c, rfl, ?_⟩⟩ <;>
        · split
          · rfl
          · split
            · rfl
            · split <;> rfl

/-- netdev_netns_ctx_init never touches the handle registry or its counter. -/
theorem init_nd_frame (s : GState) (cid : Nat) (o : InitOracle) :
    (netdev_netns_ctx_init s cid o).1.netdev_list = s.netdev_list ∧
    (netdev_netns_ctx_init s cid o).1.next_nd_id = s.next_nd_id := by
  unfold netdev_netns_ctx_init
  cases hc : ctx_find_id s cid with
  | none => exact ⟨rfl, rfl⟩
  | some c =>
    dsimp only
    by_cases hnm : c.netns_name = ""
    · rw [if_pos hnm]
      exact ⟨rfl, rfl⟩
    · rw [if_neg hnm]
      constructor <;>
        · split
          · rfl
          · split
            · rfl
            · split <;> rfl

theorem poolInv_put (s : GState) (cid : Nat) (h : poolInv s) :
    poolInv (netdev_netns_ctx_put s cid) := by
  cases hc : ctx_find_id s cid with
  | none =>
    unfold netdev_netns_ctx_put
    rw [hc]
    exact h
  | some c =>
    obtain ⟨hmem, hcid⟩ := find_by_eq_some _ _ _ _ hc
    rw [put_eval _ _ _ hc]
    have hrm : poolInv { s with
        netns_ctx_list := remove_by NetnsCtx.ctx_id cid s.netns_ctx_list } := by
      constructor
      · exact h.1.sublist (List.filter_sublist _)
      · intro x hx
        exact h.2 x (List.mem_filter.mp hx).1
    by_cases hz : c.refcount - 1 = 0
    · rw [if_pos hz]
      by_cases hfd : c.netns_fd = -1
      · rw [if_pos hfd]
        exact hrm
      · rw [if_neg hfd]
        exact poolInv_of_eq _ _ rfl rfl hrm
    · rw [if_neg hz]
      constructor
      · apply pairwise_ctx_upd _ _ _ h.1
        intro x hx hxk
        have hxc : x = c := ctx_id_unique _ h.1 x c hx hmem (hxk.trans hcid.symm)
        subst hxc
        exact ⟨rfl, rfl⟩
      · intro x hx
        obtain ⟨y, hy, he⟩ := mem_upd_by _ _ _ _ _ hx
        obtain ⟨hy1, hy2⟩ := h.2 y hy
        by_cases hk : y.ctx_id = cid
        · rw [if_pos (show (y.ctx_id == cid) = true by simpa using hk)] at he
          subst he
          exact ⟨Nat.pos_of_ne_zero hz, (h.2 c hmem).2⟩
        · rw [if_neg (show ¬((y.ctx_id == cid) = true) by simpa using hk)] at he
          subst he
          exact ⟨hy1, hy2⟩

theorem poolInv_incr_of (s : GState) (cid : Nat) (h : poolInv s) :
    poolInv (ctx_incref s cid) := by
  constructor
  · show (upd_by NetnsCtx.ctx_id cid (fun c => { c with refcount := c.refcount + 1 })
      s.netns_ctx_list).Pairwise CtxDisj
    apply pairwise_ctx_upd _ _ _ h.1
    intro x _ _
    exact ⟨rfl, rfl⟩
  · intro x hx
    obtain ⟨y, hy, he⟩ := mem_upd_by _ _ _ _ _ hx
    obtain ⟨hy1, hy2⟩ := h.2 y hy
    by_cases hk : y.ctx_id = cid
    · rw [if_pos (show (y.ctx_id == cid) = true by simpa using hk)] at he
      subst he
      exact ⟨Nat.succ_pos _, hy2⟩
    · rw [if_neg (show ¬((y.ctx_id == cid) = true) by simpa using hk)] at he
      subst he
      exact ⟨hy1, hy2⟩

theorem find_by_append_new (l : List NetnsCtx) (c : NetnsCtx)
    (hid : ∀ x ∈ l, x.ctx_id ≠ c.ctx_id) :
    find_by NetnsCtx.ctx_id c.ctx_id (l ++ [c]) = some c := by
  rw [find_by, List.find?_append]
  have h1 : l.find? (fun x => x.ctx_id == c.ctx_id) = none := by
    rw [List.find?_eq_none]
    intro x hx
    simpa using hid x hx
  rw [h1]
  simp [List.find?]

/-- Common tail of netdev_netns_ctx_get after a fresh allocation: the state
holds entries that either are the new context (id n) or satisfied the
invariant before; both the teardown (free) and the success (incref) paths
reestablish the full invariant. -/
theorem poolInv_get_tail (s0 : GState) (n : Nat)
    (h1 : s0.netns_ctx_list.Pairwise CtxDisj)
    (h2 : ∀ x ∈ s0.netns_ctx_list, x.ctx_id = n ∨ (0 < x.refcount ∧ x.ctx_id < n))
    (h3 : s0.next_ctx_id = n + 1) (rc : Int) :
    poolInv (if rc < 0 then netdev_netns_ctx_free s0 n else ctx_incref s0 n) := by
  by_cases hrc : rc < 0
  · rw [if_pos hrc]
    cases hc : ctx_find_id s0 n with
    | none =>
      unfold netdev_netns_ctx_free
      rw [hc]
      refine ⟨h1, ?_⟩
      intro x hx
      rcases h2 x hx with hxn | ⟨hp, hlt⟩
      · exfalso
        have hc2 : s0.netns_ctx_list.find? (fun x => x.ctx_id == n) = none := hc
        have := List.find?_eq_none.mp hc2 x hx
        simp [hxn] at this
      · exact ⟨hp, by rw [h3]; exact Nat.lt_succ_of_lt hlt⟩
    | some c =>
      rw [free_eval _ _ _ hc]
      have base : poolInv { s0 with
          netns_ctx_list := remove_by NetnsCtx.ctx_id n s0.netns_ctx_list } := by
        constructor
        · exact h1.sublist (List.filter_sublist _)
        · intro x hx
          obtain ⟨hxin, hxne⟩ := List.mem_filter.mp hx
          have hxne2 : x.ctx_id ≠ n := by simpa using hxne
          rcases h2 x hxin with hxn | ⟨hp, hlt⟩
          · exact absurd hxn hxne2
          · exact ⟨hp, show x.ctx_id < s0.next_ctx_id by
              rw [h3]; exact Nat.lt_succ_of_lt hlt⟩
      split
      · exact base
      · exact poolInv_of_eq _ _ rfl rfl base
  · rw [if_neg hrc]
    constructor
    · show (upd_by NetnsCtx.ctx_id n (fun c => { c with refcount := c.refcount + 1 })
        s0.netns_ctx_list).Pairwise CtxDisj
      apply pairwise_ctx_upd _ _ _ h1
      intro x _ _
      exact ⟨rfl, rfl⟩
    · intro x hx
      obtain ⟨y, hy, he⟩ := mem_upd_by _ _ _ _ _ hx
      by_cases hk : y.ctx_id = n
      · rw [if_pos (show (y.ctx_id == n) = true by simpa using hk)] at he
        rw [he]
        refine ⟨Nat.succ_pos _, ?_⟩
        show y.ctx_id < s0.next_ctx_id
        rw [h3, hk]
        exact Nat.lt_succ_self n
      · rw [if_neg (show ¬((y.ctx_id == n) = true) by simpa using hk)] at he
        rw [he]
        rcases h2 y hy with hyn | ⟨hp, hlt⟩
        · exact absurd hyn hk
        · exact ⟨hp, show y.ctx_id < s0.next_ctx_id by
            rw [h3]; exact Nat.lt_succ_of_lt hlt⟩

/-- The fresh-allocation branch of netdev_netns_ctx_get, stated for an
abstract post-allocation state sa. -/
theorem poolInv_get_fresh_aux (s sa : GState) (nm : String) (o : InitOracle)
    (h : poolInv s)
    (hname : ∀ x ∈ s.netns_ctx_list, x.netns_name ≠ nm)
    (hsa_list : sa.netns_ctx_list =
      s.netns_ctx_list ++ [⟨s.next_ctx_id, nm, -1, 0⟩])
    (hsa_next : sa.next_ctx_id = s.next_ctx_id + 1) :
    poolInv (if (netdev_netns_ctx_init sa s.next_ctx_id o).2 < 0
      then netdev_netns_ctx_free (netdev_netns_ctx_init sa s.next_ctx_id o).1 s.next_ctx_id
      else ctx_incref (netdev_netns_ctx_init sa s.next_ctx_id o).1 s.next_ctx_id) := by
  have hid : ∀ x ∈ s.netns_ctx_list, x.ctx_id ≠ s.next_ctx_id := fun x hx =>
    Nat.ne_of_lt (h.2 x hx).2
  have hpair2 : (s.netns_ctx_list ++
      [(⟨s.next_ctx_id, nm, -1, 0⟩ : NetnsCtx)]).Pairwise CtxDisj := by
    rw [List.pairwise_append]
    refine ⟨h.1, List.pairwise_singleton _ _, ?_⟩
    intro a ha b hb
    rw [List.mem_singleton] at hb
    subst hb
    exact ⟨hid a ha, hname a ha⟩
  have hfind_sa : ctx_find_id sa s.next_ctx_id = some ⟨s.next_ctx_id, nm, -1, 0⟩ := by
    unfold ctx_find_id
    rw [hsa_list]
    exact find_by_append_new s.netns_ctx_list ⟨s.next_ctx_id, nm, -1, 0⟩ hid
  apply poolInv_get_tail
  · rcases (init_result_cases sa s.next_ctx_id o).2 with hlist | ⟨c, hcfind, hlist⟩
    · rw [hlist, hsa_list]
      exact hpair2
    · rw [hfind_sa] at hcfind
      injection hcfind with he
      subst he
      rw [hlist, hsa_list]
      apply pairwise_ctx_upd _ _ _ hpair2
      intro x hxmem hxid
      have hx2 : x = (⟨s.next_ctx_id, nm, -1, 0⟩ : NetnsCtx) := by
        apply ctx_id_unique _ hpair2 x _ hxmem
          (List.mem_append_right _ (List.mem_singleton.mpr rfl))
        exact hxid
      subst hx2
      exact ⟨rfl, rfl⟩
  · rcases (init_result_cases sa s.next_ctx_id o).2 with hlist | ⟨c, hcfind, hlist⟩
    · rw [hlist, hsa_list]
      intro x hx
      rcases List.mem_append.mp hx with hxl | hxr
      · exact Or.inr (h.2 x hxl)
      · rw [List.mem_singleton] at hxr
        rw [hxr]
        exact Or.inl rfl
    · rw [hfind_sa] at hcfind
      injection hcfind with he
      subst he
      rw [hlist, hsa_list]
      intro x hx
      obtain ⟨y, hy, he2⟩ := mem_upd_by _ _ _ _ _ hx
      by_cases hk : y.ctx_id = s.next_ctx_id
      · rw [if_pos (show (y.ctx_id ==
          (⟨s.next_ctx_id, nm, -1, 0⟩ : NetnsCtx).ctx_id) = true by simpa using hk)] at he2
        rw [he2]
        exact Or.inl rfl
      · rw [if_neg (show ¬((y.ctx_id ==
          (⟨s.next_ctx_id, nm, -1, 0⟩ : NetnsCtx).ctx_id) = true) by simpa using hk)] at he2
        rw [he2]
        rcases List.mem_append.mp hy with hyl | hyr
        · exact Or.inr (h.2 y hyl)
        · rw [List.mem_singleton] at hyr
          rw [hyr] at hk
          exact absurd rfl hk
  · rw [(init_result_cases sa s.next_ctx_id o).1, hsa_next]

theorem poolInv_get (s : GState) (nm : String) (o : InitOracle) (h : poolInv s) :
    poolInv (netdev_netns_ctx_get s nm o).1 := by
  unfold netdev_netns_ctx_get
  cases hfind : netdev_netns_ctx_find_by_netns_name s nm with
  | some c => exact poolInv_incr_of _ _ h
  | none =>
    dsimp only [netdev_netns_ctx_alloc]
    rw [apply_ite Prod.fst]
    dsimp only
    have hname : ∀ x ∈ s.netns_ctx_list, x.netns_name ≠ nm := by
      intro x hx he
      have h0 : s.netns_ctx_list.find? (fun c => c.netns_name == nm) = none := hfind
      have h1 := List.find?_eq_none.mp h0 x hx
      simp [he] at h1
    exact poolInv_get_fresh_aux s _ nm o h hname rfl rfl

theorem poolInv_write_netdev (s : GState) (nd : Netdev) (h : poolInv s) :
    poolInv (write_netdev s nd) := h

theorem poolInv_enter_step (s : GState) (nd : Netdev) (rc : Int) (h : poolInv s) :
    poolInv (netns_enter_step s nd rc).1 := by
  unfold netns_enter_step
  split
  · split
    · exact h
    · exact h
  · exact h

theorem poolInv_exit_step (s : GState) (nd : Netdev) (rc : Int) (h : poolInv s) :
    poolInv (netns_exit_step s nd rc).1 := by
  unfold netns_exit_step
  split
  · split
    · exact h
    · exact h
  · exact h

theorem poolInv_register (s : GState) (nid : Nat) (o : RegOracle) (h : poolInv s) :
    poolInv (osmo_netdev_register s nid o).1 := by
  unfold osmo_netdev_register
  cases hf : nd_find s nid with
  | none => exact h
  | some nd =>
    dsimp only
    by_cases hreg : nd.registered
    · rw [if_pos hreg]
      exact h
    · rw [if_neg hreg]
      rcases hget : netdev_netns_ctx_get s (nd.netns_name.getD "") o.ctx_init with ⟨s1, oc⟩
      have hg := poolInv_get s (nd.netns_name.getD "") o.ctx_init h
      rw [hget] at hg
      cases oc with
      | none => exact poolInv_write_netdev _ _ hg
      | some cid =>
        dsimp only
        rcases hen : netns_enter_step (write_netdev s1 { nd with netns_ctx := some cid })
            { nd with netns_ctx := some cid } o.enter_rc with ⟨s2, e⟩
        have h2 := poolInv_enter_step (write_netdev s1 { nd with netns_ctx := some cid })
          { nd with netns_ctx := some cid } o.enter_rc (poolInv_write_netdev _ _ hg)
        rw [hen] at h2
        cases e with
        | some err => exact h2
        | none =>
          dsimp only
          cases hres : o.resolve with
          | none =>
            rcases hex : netns_exit_step
                { s2 with trace := s2.trace ++ [Event.if_resolve nd.ifindex] }
                { nd with netns_ctx := some cid } o.exit_rc with ⟨s3, e2⟩
            have h3 := poolInv_exit_step
              { s2 with trace := s2.trace ++ [Event.if_resolve nd.ifindex] }
              { nd with netns_ctx := some cid } o.exit_rc h2
            rw [hex] at h3
            cases e2 with
            | some err => exact h3
            | none => exact poolInv_put _ _ h3
          | some devnm =>
            dsimp only
            rcases hex : netns_exit_step
                (write_netdev { s2 with trace := s2.trace ++ [Event.if_resolve nd.ifindex] }
                  { nd with netns_ctx := some cid, dev_name := some devnm })
                { nd with netns_ctx := some cid, dev_name := some devnm } o.exit_rc with ⟨s3, e2⟩
            have h3 := poolInv_exit_step
              (write_netdev { s2 with trace := s2.trace ++ [Event.if_resolve nd.ifindex] }
                { nd with netns_ctx := some cid, dev_name := some devnm })
              { nd with netns_ctx := some cid, dev_name := some devnm } o.exit_rc
              (poolInv_write_netdev _ _ h2)
            rw [hex] at h3
            cases e2 with
            | some err => exact h3
            | none => exact poolInv_write_netdev _ _ h3

theorem poolInv_unregister (s : GState) (nid : Nat) (h : poolInv s) :
    poolInv (osmo_netdev_unregister s nid).1 := by
  unfold osmo_netdev_unregister
  cases hf : nd_find s nid with
  | none => exact h
  | some nd =>
    dsimp only
    by_cases hreg : nd.registered = false
    · rw [if_pos hreg]
      exact h
    · rw [if_neg hreg]
      cases hctx : nd.netns_ctx with
      | none => exact poolInv_write_netdev _ _ (poolInv_write_netdev _ _ h)
      | some cid =>
        exact poolInv_write_netdev _ _ (poolInv_put _ _ (poolInv_write_netdev _ _ h))

theorem poolInv_ndlist_change (s : GState) (l : List Netdev) (h : poolInv s) :
    poolInv { s with netdev_list := l } := h

theorem poolInv_free (s : GState) (nid : Nat) (h : poolInv s) :
    poolInv (osmo_netdev_free s nid) := by
  unfold osmo_netdev_free
  cases hf : nd_find s nid with
  | none => exact h
  | some nd =>
    dsimp only
    by_cases hreg : nd.registered
    · rw [if_pos hreg]
      exact poolInv_ndlist_change _ _ (poolInv_unregister s nid h)
    · rw [if_neg hreg]
      exact poolInv_ndlist_change _ _ h

theorem poolInv_ifupdown (s : GState) (nid : Nat) (o : OpOracle) (b : Bool) (h : poolInv s) :
    poolInv (osmo_netdev_ifupdown s nid o b).1 := by
  unfold osmo_netdev_ifupdown
  cases hf : nd_find s nid with
  | none => exact h
  | some nd =>
    dsimp only
    by_cases hreg : nd.registered = false
    · rw [if_pos hreg]
      exact h
    · rw [if_neg hreg]
      rcases hen : netns_enter_step s nd o.enter_rc with ⟨s1, e⟩
      have h1 := poolInv_enter_step s nd o.enter_rc h
      rw [hen] at h1
      cases e with
      | some err => exact h1
      | none =>
        dsimp only
        rcases hex : netns_exit_step s1 nd o.exit_rc with ⟨s2, e2⟩
        have h2 := poolInv_exit_step s1 nd o.exit_rc h1
        rw [hex] at h2
        cases e2 with
        | some err => exact h2
        | none => exact h2

theorem poolInv_add_addr (s : GState) (nid : Nat) (o : OpOracle) (a p : Nat) (h : poolInv s) :
    poolInv (osmo_netdev_add_addr s nid o a p).1 := by
  unfold osmo_netdev_add_addr
  cases hf : nd_find s nid with
  | none => exact h
  | some nd =>
    dsimp only
    by_cases hreg : nd.registered = false
    · rw [if_pos hreg]
      exact h
    · rw [if_neg hreg]
      rcases hen : netns_enter_step s nd o.enter_rc with ⟨s1, e⟩
      have h1 := poolInv_enter_step s nd o.enter_rc h
      rw [hen] at h1
      cases e with
      | some err => exact h1
      | none =>
        dsimp only
        rcases hex : netns_exit_step s1 nd o.exit_rc with ⟨s2, e2⟩
        have h2 := poolInv_exit_step s1 nd o.exit_rc h1
        rw [hex] at h2
        cases e2 with
        | some err => exact h2
        | none => exact h2

theorem poolInv_add_route (s : GState) (nid : Nat) (o : OpOracle) (d p : Nat) (g : Option Nat)
    (h : poolInv s) : poolInv (osmo_netdev_add_route s nid o d p g).1 := by
  unfold osmo_netdev_add_route
  cases hf : nd_find s nid with
  | none => exact h
  | some nd =>
    dsimp only
    by_cases hreg : nd.registered = false
    · rw [if_pos hreg]
      exact h
    · rw [if_neg hreg]
      rcases hen : netns_enter_step s nd o.enter_rc with ⟨s1, e⟩
      have h1 := poolInv_enter_step s nd o.enter_rc h
      rw [hen] at h1
      cases e with
      | some err => exact h1
      | none =>
        dsimp only
        rcases hex : netns_exit_step s1 nd o.exit_rc with ⟨s2, e2⟩
        have h2 := poolInv_exit_step s1 nd o.exit_rc h1
        rw [hex] at h2
        cases e2 with
        | some err => exact h2
        | none => exact h2

theorem poolInv_set_ifindex (s : GState) (nid i : Nat) (h : poolInv s) :
    poolInv (osmo_netdev_set_ifindex s nid i).1 := by
  unfold osmo_netdev_set_ifindex
  cases hf : nd_find s nid with
  | none => exact h
  | some nd =>
    dsimp only
    split
    · exact h
    · exact poolInv_write_netdev _ _ h

theorem poolInv_set_netns_name (s : GState) (nid : Nat) (nm : Option String) (h : poolInv s) :
    poolInv (osmo_netdev_set_netns_name s nid nm).1 := by
  unfold osmo_netdev_set_netns_name
  cases hf : nd_find s nid with
  | none => exact h
  | some nd =>
    dsimp only
    split
    · exact h
    · exact poolInv_write_netdev _ _ h

theorem poolInv_set_priv_data (s : GState) (nid p : Nat) (h : poolInv s) :
    poolInv (osmo_netdev_set_priv_data s nid p) := by
  unfold osmo_netdev_set_priv_data
  cases hf : nd_find s nid with
  | none => exact h
  | some nd => exact poolInv_write_netdev _ _ h

theorem poolInv_alloc (s : GState) (nm : String) (h : poolInv s) :
    poolInv (osmo_netdev_alloc s nm).1 := h

theorem poolInv_applyOp (s : GState) (op : Op) (h : poolInv s) : poolInv (applyOp s op) := by
  cases op with
  | op_alloc nm => exact poolInv_alloc s nm h
  | op_free nid => exact poolInv_free s nid h
  | op_register nid o => exact poolInv_register s nid o h
  | op_unregister nid => exact poolInv_unregister s nid h
  | op_set_ifindex nid i => exact poolInv_set_ifindex s nid i h
  | op_set_netns_name nid nm => exact poolInv_set_netns_name s nid nm h
  | op_set_priv_data nid p => exact poolInv_set_priv_data s nid p h
  | op_ifupdown nid o b => exact poolInv_ifupdown s nid o b h
  | op_add_addr nid o a p => exact poolInv_add_addr s nid o a p h
  | op_add_route nid o d p g => exact poolInv_add_route s nid o d p g h

theorem poolInv_init_state : poolInv init_state := by
  constructor
  · exact List.Pairwise.nil
  · intro c hc
    simp [init_state] at hc

theorem poolInv_foldl (ops : List Op) (s : GState) (h : poolInv s) :
    poolInv (ops.foldl applyOp s) := by
  induction ops generalizing s with
  | nil => exact h
  | cons op rest ih => exact ih _ (poolInv_applyOp s op h)

theorem poolInv_runOps (ops : List Op) : poolInv (runOps ops) :=
  poolInv_foldl ops init_state poolInv_init_state

/-! Claim theorems. -/

/-- C4: at every point between public operations (any sequence of
register/unregister/free/... on any set of handles, starting from process
start), for each distinct namespace name at most one NamespaceContext exists
in the pool, and every context in the pool has a reference count greater
than zero (so a context exists if and only if it is referenced). -/
theorem C4_pool_invariant (ops : List Op) :
    (∀ c1 ∈ (runOps ops).netns_ctx_list, ∀ c2 ∈ (runOps ops).netns_ctx_list,
      c1.netns_name = c2.netns_name → c1 = c2) ∧
    (∀ c ∈ (runOps ops).netns_ctx_list, 0 < c.refcount) := by
  obtain ⟨hp, hm⟩ := poolInv_runOps ops
  constructor
  · intro c1 h1 c2 h2 hname
    by_cases he : c1 = c2
    · exact he
    · exact absurd hname (hp.forall ctxDisj_symm h1 h2 he).2
  · intro c hc
    exact (hm c hc).1

def c4_oracle : RegOracle :=
  { ctx_init := { open_fd := 3, enter_rc := 0, exit_rc := 0 },
    enter_rc := 0, resolve := some "eth0", exit_rc := 0 }

def c4_ops : List Op :=
  [Op.op_alloc "h", Op.op_set_netns_name 0 (some "blue"), Op.op_register 0 c4_oracle]

/-- Witness for C4 at a concrete operation sequence. -/
theorem C4_pool_invariant_witness :
    (⟨0, "blue", 3, 1⟩ : NetnsCtx) ∈ (runOps c4_ops).netns_ctx_list ∧
    0 < (⟨0, "blue", 3, 1⟩ : NetnsCtx).refcount := by
  have hmem : (⟨0, "blue", 3, 1⟩ : NetnsCtx) ∈ (runOps c4_ops).netns_ctx_list := by
    rw [show (runOps c4_ops).netns_ctx_list = [⟨0, "blue", 3, 1⟩] from rfl]
    exact List.mem_singleton.mpr rfl
  exact ⟨hmem, (C4_pool_invariant c4_ops).2 _ hmem⟩

/-- C7: on an Unregistered handle each of the three interface operations
returns -ENODEV (the "NotConnected" kind of the spec) and leaves the whole
process state unchanged: in particular no namespace enter or exit call is
made (the trace is unchanged) and no backend is invoked. -/
theorem C7_unregistered_ops_enodev (s : GState) (nid : Nat) (nd : Netdev) (o : OpOracle)
    (b : Bool) (addr plen dst dplen : Nat) (gw : Option Nat)
    (hfind : nd_find s nid = some nd) (hreg : nd.registered = false) :
    osmo_netdev_ifupdown s nid o b = (s, -ENODEV) ∧
    osmo_netdev_add_addr s nid o addr plen = (s, -ENODEV) ∧
    osmo_netdev_add_route s nid o dst dplen gw = (s, -ENODEV) := by
  refine ⟨?_, ?_, ?_⟩
  · unfold osmo_netdev_ifupdown
    rw [hfind]
    dsimp only
    rw [if_pos hreg]
  · unfold osmo_netdev_add_addr
    rw [hfind]
    dsimp only
    rw [if_pos hreg]
  · unfold osmo_netdev_add_route
    rw [hfind]
    dsimp only
    rw [if_pos hreg]

def c7_nd : Netdev :=
  { nd_id := 0, netns_ctx := none, name := "h", ifindex := 3, dev_name := none,
    netns_name := none, priv_data := 0, registered := false,
    has_ifupdown_ind_cb := false, has_dev_name_chg_cb := false, has_mtu_chg_cb := false,
    if_up := false, if_up_known := false, if_mtu := 0, if_mtu_known := false }

def c7_s : GState :=
  { netns_ctx_list := [], netdev_list := [c7_nd], next_ctx_id := 0, next_nd_id := 1,
    trace := [] }

/-- Witness for C7 at a concrete unregistered handle. -/
theorem C7_unregistered_ops_enodev_witness :
    (nd_find c7_s 0 = some c7_nd ∧ c7_nd.registered = false) ∧
    (osmo_netdev_ifupdown c7_s 0 ⟨0, 0⟩ true = (c7_s, -ENODEV) ∧
     osmo_netdev_add_addr c7_s 0 ⟨0, 0⟩ 1 24 = (c7_s, -ENODEV) ∧
     osmo_netdev_add_route c7_s 0 ⟨0, 0⟩ 2 0 none = (c7_s, -ENODEV)) :=
  ⟨⟨by decide, by decide⟩,
   C7_unregistered_ops_enodev c7_s 0 c7_nd ⟨0, 0⟩ true 1 24 2 0 none (by decide) (by decide)⟩

/-- C8: on a Registered handle, setting the ifindex, setting the netns name
and calling register again each return -EALREADY and leave the whole process
state (hence every field of every handle) unchanged. -/
theorem C8_registered_config_ealready (s : GState) (nid : Nat) (nd : Netdev) (i : Nat)
    (nm : Option String) (o : RegOracle)
    (hfind : nd_find s nid = some nd) (hreg : nd.registered = true) :
    osmo_netdev_set_ifindex s nid i = (s, -EALREADY) ∧
    osmo_netdev_set_netns_name s nid nm = (s, -EALREADY) ∧
    osmo_netdev_register s nid o = (s, -EALREADY) := by
  refine ⟨?_, ?_, ?_⟩
  · unfold osmo_netdev_set_ifindex
    rw [hfind]
    dsimp only
    rw [if_pos hreg]
  · unfold osmo_netdev_set_netns_name
    rw [hfind]
    dsimp only
    rw [if_pos hreg]
  · unfold osmo_netdev_register
    rw [hfind]
    dsimp only
    rw [if_pos hreg]

def c8_nd : Netdev :=
  { nd_id := 0, netns_ctx := some 0, name := "h", ifindex := 3, dev_name := some "eth0",
    netns_name := some "blue", priv_data := 0, registered := true,
    has_ifupdown_ind_cb := false, has_dev_name_chg_cb := false, has_mtu_chg_cb := false,
    if_up := false, if_up_known := false, if_mtu := 0, if_mtu_known := false }

def c8_s : GState :=
  { netns_ctx_list := [⟨0, "blue", 3, 1⟩], netdev_list := [c8_nd], next_ctx_id := 1,
    next_nd_id := 1, trace := [] }

/-- Witness for C8 at a concrete registered handle. -/
theorem C8_registered_config_ealready_witness :
    (nd_find c8_s 0 = some c8_nd ∧ c8_nd.registered = true) ∧
    (osmo_netdev_set_ifindex c8_s 0 7 = (c8_s, -EALREADY) ∧
     osmo_netdev_set_netns_name c8_s 0 (some "red") = (c8_s, -EALREADY) ∧
     osmo_netdev_register c8_s 0 ⟨⟨3, 0, 0⟩, 0, some "eth0", 0⟩ = (c8_s, -EALREADY)) :=
  ⟨⟨by decide, by decide⟩,
   C8_registered_config_ealready c8_s 0 c8_nd 7 (some "red") ⟨⟨3, 0, 0⟩, 0, some "eth0", 0⟩
     (by decide) (by decide)⟩

/-- C9: unregister() on an Unregistered handle returns -EALREADY and leaves
the whole process state unchanged: no context refcount is decremented a
second time and no context is destroyed. -/
theorem C9_unregistered_unregister_ealready (s : GState) (nid : Nat) (nd : Netdev)
    (hfind : nd_find s nid = some nd) (hreg : nd.registered = false) :
    osmo_netdev_unregister s nid = (s, -EALREADY) := by
  unfold osmo_netdev_unregister
  rw [hfind]
  dsimp only
  rw [if_pos hreg]

def c9_nd : Netdev :=
  { nd_id := 0, netns_ctx := none, name := "h", ifindex := 3, dev_name := some "eth0",
    netns_name := none, priv_data := 0, registered := false,
    has_ifupdown_ind_cb := false, has_dev_name_chg_cb := false, has_mtu_chg_cb := false,
    if_up := false, if_up_known := false, if_mtu := 0, if_mtu_known := false }

def c9_s : GState :=
  { netns_ctx_list := [], netdev_list := [c9_nd], next_ctx_id := 0, next_nd_id := 1,
    trace := [] }

/-- Witness for C9 at a concrete unregistered handle. -/
theorem C9_unregistered_unregister_ealready_witness :
    (nd_find c9_s 0 = some c9_nd ∧ c9_nd.registered = false) ∧
    osmo_netdev_unregister c9_s 0 = (c9_s, -EALREADY) :=
  ⟨⟨by decide, by decide⟩,
   C9_unregistered_unregister_ealready c9_s 0 c9_nd (by decide) (by decide)⟩

/-! Evaluation of osmo_netdev_unregister on a Registered handle. -/

/-- unregister when the released reference was not the last one. -/
theorem unreg_eval_keep (s : GState) (nid cid : Nat) (nd : Netdev) (c : NetnsCtx)
    (hfind : nd_find s nid = some nd) (hreg : nd.registered = true)
    (hctx : nd.netns_ctx = some cid) (hc : ctx_find_id s cid = some c)
    (hkeep : c.refcount - 1 ≠ 0) :
    osmo_netdev_unregister s nid =
      ({ s with
          netdev_list :=
            upd_by Netdev.nd_id nid
              (fun _ =>
                { nd with if_up_known := false, if_mtu_known := false, registered := false })
              s.netdev_list,
          netns_ctx_list :=
            upd_by NetnsCtx.ctx_id cid (fun _ => { c with refcount := c.refcount - 1 })
              s.netns_ctx_list }, 0) := by
  have hndid : nd.nd_id = nid := (find_by_eq_some _ _ _ _ hfind).2
  unfold osmo_netdev_unregister
  rw [hfind]
  dsimp only
  rw [if_neg (by simp [hreg])]
  rw [hctx]
  dsimp only
  rw [put_eval _ _ _
    (show ctx_find_id
      (write_netdev s
        { nd with netns_ctx := some cid, if_up_known := false, if_mtu_known := false })
      cid = some c from hc), if_neg hkeep]
  dsimp only [write_netdev]
  rw [hndid, upd_by_upd_by_self Netdev.nd_id nid _ _ _ (fun x _ => rfl)]

/-- unregister when the released reference was the last one: the context is
removed from the pool and, when its fd was open, the fd is closed. -/
theorem unreg_eval_freed (s : GState) (nid cid : Nat) (nd : Netdev) (c : NetnsCtx)
    (hfind : nd_find s nid = some nd) (hreg : nd.registered = true)
    (hctx : nd.netns_ctx = some cid) (hc : ctx_find_id s cid = some c)
    (hlast : c.refcount - 1 = 0) :
    osmo_netdev_unregister s nid =
      ({ s with
          netdev_list :=
            upd_by Netdev.nd_id nid
              (fun _ =>
                { nd with if_up_known := false, if_mtu_known := false, registered := false })
              s.netdev_list,
          netns_ctx_list := remove_by NetnsCtx.ctx_id cid s.netns_ctx_list,
          trace :=
            s.trace ++ (if c.netns_fd = -1 then [] else [Event.fd_close c.netns_fd]) }, 0) := by
  have hndid : nd.nd_id = nid := (find_by_eq_some _ _ _ _ hfind).2
  unfold osmo_netdev_unregister
  rw [hfind]
  dsimp only
  rw [if_neg (by simp [hreg])]
  rw [hctx]
  dsimp only
  rw [put_eval _ _ _
    (show ctx_find_id
      (write_netdev s
        { nd with netns_ctx := some cid, if_up_known := false, if_mtu_known := false })
      cid = some c from hc), if_pos hlast]
  by_cases hfd : c.netns_fd = -1
  · rw [if_pos hfd, if_pos hfd]
    dsimp only [write_netdev]
    rw [hndid, upd_by_upd_by_self Netdev.nd_id nid _ _ _ (fun x _ => rfl)]
    simp
  · rw [if_neg hfd, if_neg hfd]
    dsimp only [write_netdev]
    rw [hndid, upd_by_upd_by_self Netdev.nd_id nid _ _ _ (fun x _ => rfl)]

/-- C10: unregister() on a Registered handle (whose context reference is in
the pool) always returns 0; it performs no namespace switch at all (the only
possible trace event is the close of the context fd when the last reference
is dropped — never an enter or exit); it clears the up/down-known and
MTU-known flags and the registered flag while leaving the cached OS name,
ifindex, netns name and private data unchanged; and it releases exactly one
NamespaceContext reference (removing the context when it was the last). -/
theorem C10_unregister_behavior (s : GState) (nid cid : Nat) (nd : Netdev) (c : NetnsCtx)
    (hfind : nd_find s nid = some nd) (hreg : nd.registered = true)
    (hctx : nd.netns_ctx = some cid) (hc : ctx_find_id s cid = some c) :
    (osmo_netdev_unregister s nid).2 = 0 ∧
    nd_find (osmo_netdev_unregister s nid).1 nid =
      some { nd with if_up_known := false, if_mtu_known := false, registered := false } ∧
    ctx_find_id (osmo_netdev_unregister s nid).1 cid =
      (if c.refcount - 1 = 0 then none else some { c with refcount := c.refcount - 1 }) ∧
    (osmo_netdev_unregister s nid).1.trace =
      s.trace ++ (if c.refcount - 1 = 0 ∧ c.netns_fd ≠ -1
        then [Event.fd_close c.netns_fd] else []) := by
  have hndid : nd.nd_id = nid := (find_by_eq_some _ _ _ _ hfind).2
  have hcid : c.ctx_id = cid := (find_by_eq_some _ _ _ _ hc).2
  by_cases hz : c.refcount - 1 = 0
  · rw [unreg_eval_freed s nid cid nd c hfind hreg hctx hc hz]
    refine ⟨rfl, ?_, ?_, ?_⟩
    · show find_by Netdev.nd_id nid _ = _
      rw [find_by_upd_self Netdev.nd_id nid
        (fun _ => { nd with if_up_known := false, if_mtu_known := false, registered := false })
        s.netdev_list (fun x _ => hndid)]
      rw [show find_by Netdev.nd_id nid s.netdev_list = some nd from hfind]
      rfl
    · rw [if_pos hz]
      exact find_by_remove_self _ _ _
    · by_cases hfd : c.netns_fd = -1
      · simp [hz, hfd]
      · simp [hz, hfd]
  · rw [unreg_eval_keep s nid cid nd c hfind hreg hctx hc hz]
    refine ⟨rfl, ?_, ?_, ?_⟩
    · show find_by Netdev.nd_id nid _ = _
      rw [find_by_upd_self Netdev.nd_id nid
        (fun _ => { nd with if_up_known := false, if_mtu_known := false, registered := false })
        s.netdev_list (fun x _ => hndid)]
      rw [show find_by Netdev.nd_id nid s.netdev_list = some nd from hfind]
      rfl
    · rw [if_neg hz]
      show find_by NetnsCtx.ctx_id cid _ = _
      rw [find_by_upd_self NetnsCtx.ctx_id cid
        (fun _ => { c with refcount := c.refcount - 1 }) s.netns_ctx_list (fun x _ => hcid)]
      rw [show find_by NetnsCtx.ctx_id cid s.netns_ctx_list = some c from hc]
      rfl
    · simp [hz]

def c10_nd : Netdev :=
  { nd_id := 0, netns_ctx := some 0, name := "h", ifindex := 5, dev_name := some "eth0",
    netns_name := some "blue", priv_data := 7, registered := true,
    has_ifupdown_ind_cb := false, has_dev_name_chg_cb := false, has_mtu_chg_cb := false,
    if_up := true, if_up_known := true, if_mtu := 1500, if_mtu_known := true }

def c10_c : NetnsCtx := ⟨0, "blue", 3, 2⟩

def c10_s : GState :=
  { netns_ctx_list := [c10_c], netdev_list := [c10_nd], next_ctx_id := 1, next_nd_id := 1,
    trace := [] }

/-- Witness for C10 at a concrete registered handle sharing its context. -/
theorem C10_unregister_behavior_witness :
    (nd_find c10_s 0 = some c10_nd ∧ c10_nd.registered = true ∧
     c10_nd.netns_ctx = some 0 ∧ ctx_find_id c10_s 0 = some c10_c) ∧
    ((osmo_netdev_unregister c10_s 0).2 = 0 ∧
     nd_find (osmo_netdev_unregister c10_s 0).1 0 =
       some { c10_nd with if_up_known := false, if_mtu_known := false, registered := false } ∧
     ctx_find_id (osmo_netdev_unregister c10_s 0).1 0 =
       (if c10_c.refcount - 1 = 0 then none
        else some { c10_c with refcount := c10_c.refcount - 1 }) ∧
     (osmo_netdev_unregister c10_s 0).1.trace =
       c10_s.trace ++ (if c10_c.refcount - 1 = 0 ∧ c10_c.netns_fd ≠ -1
         then [Event.fd_close c10_c.netns_fd] else [])) :=
  ⟨⟨by decide, by decide, by decide, by decide⟩,
   C10_unregister_behavior c10_s 0 0 c10_nd c10_c (by decide) (by decide) (by decide)
     (by decide)⟩

/-- C6: free() on a Registered handle performs the full unregister sequence
first and only then removes the handle from the registry: the state after
free is exactly the unregister result with the handle erased from the
registry list.  Hence the handle is gone from the registry and its
NamespaceContext reference has been released — refcount decremented, the
context destroyed when it held the last reference — so no reference leaks. -/
theorem C6_free_unregisters_first (s : GState) (nid cid : Nat) (nd : Netdev) (c : NetnsCtx)
    (hfind : nd_find s nid = some nd) (hreg : nd.registered = true)
    (hctx : nd.netns_ctx = some cid) (hc : ctx_find_id s cid = some c) :
    osmo_netdev_free s nid =
      { (osmo_netdev_unregister s nid).1 with
          netdev_list :=
            remove_by Netdev.nd_id nid (osmo_netdev_unregister s nid).1.netdev_list } ∧
    nd_find (osmo_netdev_free s nid) nid = none ∧
    ctx_find_id (osmo_netdev_free s nid) cid =
      (if c.refcount - 1 = 0 then none else some { c with refcount := c.refcount - 1 }) := by
  have hcid : c.ctx_id = cid := (find_by_eq_some _ _ _ _ hc).2
  have h1 : osmo_netdev_free s nid =
      { (osmo_netdev_unregister s nid).1 with
          netdev_list :=
            remove_by Netdev.nd_id nid (osmo_netdev_unregister s nid).1.netdev_list } := by
    unfold osmo_netdev_free
    rw [hfind]
    dsimp only
    rw [if_pos hreg]
  refine ⟨h1, ?_, ?_⟩
  · rw [h1]
    exact find_by_remove_self _ _ _
  · rw [h1]
    show find_by NetnsCtx.ctx_id cid (osmo_netdev_unregister s nid).1.netns_ctx_list = _
    by_cases hz : c.refcount - 1 = 0
    · rw [unreg_eval_freed s nid cid nd c hfind hreg hctx hc hz]
      rw [if_pos hz]
      exact find_by_remove_self _ _ _
    · rw [unreg_eval_keep s nid cid nd c hfind hreg hctx hc hz]
      rw [if_neg hz]
      show find_by NetnsCtx.ctx_id cid _ = _
      rw [find_by_upd_self NetnsCtx.ctx_id cid
        (fun _ => { c with refcount := c.refcount - 1 }) s.netns_ctx_list (fun x _ => hcid)]
      rw [show find_by NetnsCtx.ctx_id cid s.netns_ctx_list = some c from hc]
      rfl

def c6_nd : Netdev :=
  { nd_id := 0, netns_ctx := some 0, name := "h", ifindex := 5, dev_name := some "eth0",
    netns_name := some "blue", priv_data := 0, registered := true,
    has_ifupdown_ind_cb := false, has_dev_name_chg_cb := false, has_mtu_chg_cb := false,
    if_up := false, if_up_known := true, if_mtu := 0, if_mtu_known := false }

def c6_c : NetnsCtx := ⟨0, "blue", 3, 1⟩

def c6_s : GState :=
  { netns_ctx_list := [c6_c], netdev_list := [c6_nd], next_ctx_id := 1, next_nd_id := 1,
    trace := [] }

/-- Witness for C6 at a concrete registered handle holding the last
reference of its context. -/
theorem C6_free_unregisters_first_witness :
    (nd_find c6_s 0 = some c6_nd ∧ c6_nd.registered = true ∧
     c6_nd.netns_ctx = some 0 ∧ ctx_find_id c6_s 0 = some c6_c) ∧
    (osmo_netdev_free c6_s 0 =
      { (osmo_netdev_unregister c6_s 0).1 with
          netdev_list :=
            remove_by Netdev.nd_id 0 (osmo_netdev_unregister c6_s 0).1.netdev_list } ∧
     nd_find (osmo_netdev_free c6_s 0) 0 = none ∧
     ctx_find_id (osmo_netdev_free c6_s 0) 0 =
       (if c6_c.refcount - 1 = 0 then none
        else some { c6_c with refcount := c6_c.refcount - 1 })) :=
  ⟨⟨by decide, by decide, by decide, by decide⟩,
   C6_free_unregisters_first c6_s 0 0 c6_nd c6_c (by decide) (by decide) (by decide)
     (by decide)⟩

/-! Evaluation lemmas for the namespace-switch guard steps. -/

theorem enter_step_none (s : GState) (nd : Netdev) (rc : Int)
    (hns : nd.netns_name = none) : netns_enter_step s nd rc = (s, none) := by
  unfold netns_enter_step
  rw [if_neg (by simp [hns])]

theorem exit_step_none (s : GState) (nd : Netdev) (rc : Int)
    (hns : nd.netns_name = none) : netns_exit_step s nd rc = (s, none) := by
  unfold netns_exit_step
  rw [if_neg (by simp [hns])]

theorem enter_step_some_ok (s : GState) (nd : Netdev) (rc : Int)
    (hns : nd.netns_name.isSome = true) (hrc : 0 ≤ rc) :
    netns_enter_step s nd rc =
      ({ s with trace := s.trace ++ [Event.ns_enter (nd_ctx_fd s nd)] }, none) := by
  unfold netns_enter_step
  rw [if_pos hns, if_neg (not_lt.mpr hrc)]

theorem enter_step_some_fail (s : GState) (nd : Netdev) (rc : Int)
    (hns : nd.netns_name.isSome = true) (hrc : rc < 0) :
    netns_enter_step s nd rc =
      ({ s with trace := s.trace ++ [Event.ns_enter (nd_ctx_fd s nd)] }, some (-EACCES)) := by
  unfold netns_enter_step
  rw [if_pos hns, if_pos hrc]

theorem exit_step_some_ok (s : GState) (nd : Netdev) (rc : Int)
    (hns : nd.netns_name.isSome = true) (hrc : 0 ≤ rc) :
    netns_exit_step s nd rc = ({ s with trace := s.trace ++ [Event.ns_exit] }, none) := by
  unfold netns_exit_step
  rw [if_pos hns, if_neg (not_lt.mpr hrc)]

theorem exit_step_some_fail (s : GState) (nd : Netdev) (rc : Int)
    (hns : nd.netns_name.isSome = true) (hrc : rc < 0) :
    netns_exit_step s nd rc = ({ s with trace := s.trace ++ [Event.ns_exit] }, some rc) := by
  unfold netns_exit_step
  rw [if_pos hns, if_pos hrc]

/-! Evaluation of context acquisition and successful registration. -/

theorem upd_by_append {α : Type} (key : α → Nat) (k : Nat) (g : α → α) (l1 l2 : List α) :
    upd_by key k g (l1 ++ l2) = upd_by key k g l1 ++ upd_by key k g l2 :=
  List.map_append _ _ _

/-- netdev_netns_ctx_init on a context present in the pool with a non-empty
name when everything succeeds: store the opened fd, trace the validation
switch in and out, return 0. -/
theorem init_fresh_eval (s : GState) (o : InitOracle) (cid : Nat) (c : NetnsCtx)
    (hc : ctx_find_id s cid = some c) (hnm : c.netns_name ≠ "")
    (hfd : 0 ≤ o.open_fd) (hen : 0 ≤ o.enter_rc) (hex : 0 ≤ o.exit_rc) :
    netdev_netns_ctx_init s cid o =
      ({ s with
          netns_ctx_list :=
            upd_by NetnsCtx.ctx_id c.ctx_id (fun _ => { c with netns_fd := o.open_fd })
              s.netns_ctx_list,
          trace := s.trace ++ [Event.ns_enter o.open_fd, Event.ns_exit] }, 0) := by
  unfold netdev_netns_ctx_init
  rw [hc]
  dsimp only
  rw [if_neg hnm, if_neg (not_lt.mpr hfd), if_neg (not_lt.mpr hen), if_neg (not_lt.mpr hex)]
  dsimp only [write_ctx]
  simp [List.append_assoc]

/-- netdev_netns_ctx_get at a name already present in the pool. -/
theorem ctx_get_found_eval (s : GState) (nm : String) (o : InitOracle) (c : NetnsCtx)
    (hfind : netdev_netns_ctx_find_by_netns_name s nm = some c) :
    netdev_netns_ctx_get s nm o = (ctx_incref s c.ctx_id, some c.ctx_id) := by
  unfold netdev_netns_ctx_get
  rw [hfind]

/-- netdev_netns_ctx_get at a fresh non-empty name with a fully successful
init oracle: one new context with the opened fd and refcount 1 is appended,
and the validation switch in and out is traced. -/
theorem ctx_get_fresh_eval (s : GState) (nm : String) (o : InitOracle)
    (hfind : netdev_netns_ctx_find_by_netns_name s nm = none) (hnm : nm ≠ "")
    (hfd : 0 ≤ o.open_fd) (hen : 0 ≤ o.enter_rc) (hex : 0 ≤ o.exit_rc)
    (hids : ∀ x ∈ s.netns_ctx_list, x.ctx_id ≠ s.next_ctx_id) :
    netdev_netns_ctx_get s nm o =
      ({ s with
          netns_ctx_list := s.netns_ctx_list ++ [⟨s.next_ctx_id, nm, o.open_fd, 1⟩],
          next_ctx_id := s.next_ctx_id + 1,
          trace := s.trace ++ [Event.ns_enter o.open_fd, Event.ns_exit] },
       some s.next_ctx_id) := by
  unfold netdev_netns_ctx_get
  rw [hfind]
  dsimp only [netdev_netns_ctx_alloc]
  have hfind_new : ctx_find_id
      { s with
          netns_ctx_list := s.netns_ctx_list ++ [⟨s.next_ctx_id, nm, -1, 0⟩],
          next_ctx_id := s.next_ctx_id + 1 } s.next_ctx_id =
      some ⟨s.next_ctx_id, nm, -1, 0⟩ :=
    find_by_append_new s.netns_ctx_list ⟨s.next_ctx_id, nm, -1, 0⟩ hids
  rw [init_fresh_eval _ o s.next_ctx_id ⟨s.next_ctx_id, nm, -1, 0⟩ hfind_new hnm hfd hen hex]
  dsimp only
  rw [if_neg (by decide : ¬ ((0 : Int) < 0))]
  dsimp only [ctx_incref]
  rw [upd_by_upd_by_self NetnsCtx.ctx_id s.next_ctx_id _ _ _ (fun x _ => rfl)]
  rw [upd_by_append]
  rw [upd_by_no_match NetnsCtx.ctx_id s.next_ctx_id _ s.netns_ctx_list hids]
  simp [upd_by]

/-- A fully successful osmo_netdev_register on an Unregistered handle with a
set namespace name, in terms of the context acquisition result (s1, cid):
the handle is rewritten with the shared context, the resolved OS name and
registered = true, and the guard and resolution calls are traced. -/
theorem register_success_eval (s s1 : GState) (nid cid : Nat) (nd : Netdev) (o : RegOracle)
    (m dn : String)
    (hfind : nd_find s nid = some nd) (hreg : nd.registered = false)
    (hns : nd.netns_name = some m)
    (hget : netdev_netns_ctx_get s m o.ctx_init = (s1, some cid))
    (hen : 0 ≤ o.enter_rc) (hres : o.resolve = some dn) (hex : 0 ≤ o.exit_rc) :
    osmo_netdev_register s nid o =
      ({ s1 with
          netdev_list :=
            upd_by Netdev.nd_id nid
              (fun _ =>
                { nd with netns_ctx := some cid, dev_name := some dn, registered := true })
              s1.netdev_list,
          trace :=
            s1.trace ++ [Event.ns_enter (ctx_fd s1 cid), Event.if_resolve nd.ifindex,
              Event.ns_exit] }, 0) := by
  have hndid : nd.nd_id = nid := (find_by_eq_some _ _ _ _ hfind).2
  unfold osmo_netdev_register
  rw [hfind]
  dsimp only
  rw [if_neg (by simp [hreg])]
  rw [hns]
  dsimp only [Option.getD]
  rw [hget]
  dsimp only
  rw [enter_step_some_ok
    (write_netdev s1 { nd with netns_ctx := some cid, netns_name := some m })
    { nd with netns_ctx := some cid, netns_name := some m } o.enter_rc rfl hen]
  dsimp only
  rw [hres]
  dsimp only
  rw [exit_step_some_ok _
    { nd with netns_ctx := some cid, dev_name := some dn, netns_name := some m } o.exit_rc
    rfl hex]
  dsimp only [write_netdev, nd_ctx_fd]
  rw [hndid]
  rw [upd_by_upd_by_self Netdev.nd_id nid _ _ _ (fun x _ => rfl)]
  rw [upd_by_upd_by_self Netdev.nd_id nid _ _ _ (fun x _ => rfl)]
  simp [List.append_assoc, ctx_fd]
  rfl

def c1_s : GState :=
  (osmo_netdev_set_netns_name (osmo_netdev_alloc init_state "h").1 0 (some "blue")).1

def c1_oracle_enter_fail : RegOracle :=
  { ctx_init := { open_fd := 3, enter_rc := 0, exit_rc := 0 },
    enter_rc := -1, resolve := some "eth0", exit_rc := 0 }

def c1_oracle_exit_fail : RegOracle :=
  { ctx_init := { open_fd := 3, enter_rc := 0, exit_rc := 0 },
    enter_rc := 0, resolve := some "eth0", exit_rc := -7 }

/-- C1 failing input: the claim says register() is all-or-nothing (every
failure after the context has been acquired releases the just-acquired
reference and leaves the fields unchanged).  The code violates this because
the NETDEV_NETNS_ENTER/EXIT macros return early without the
netdev_netns_ctx_put of the err_put_exit path: (a) when the namespace enter
fails, register returns -EACCES but the context created by this very call
stays in the pool with refcount 1, never released; (b) when the namespace
exit fails after a successful name resolution, register returns the exit
error, again without releasing the reference, and the cached OS name has
already been overwritten.  The handle does remain Unregistered. -/
theorem C1_register_failure_leaks_reference :
    ((osmo_netdev_register c1_s 0 c1_oracle_enter_fail).2 = -EACCES ∧
     osmo_netdev_is_registered (osmo_netdev_register c1_s 0 c1_oracle_enter_fail).1 0 = false ∧
     c1_s.netns_ctx_list = [] ∧
     (osmo_netdev_register c1_s 0 c1_oracle_enter_fail).1.netns_ctx_list =
       [⟨0, "blue", 3, 1⟩]) ∧
    ((osmo_netdev_register c1_s 0 c1_oracle_exit_fail).2 = -7 ∧
     osmo_netdev_is_registered (osmo_netdev_register c1_s 0 c1_oracle_exit_fail).1 0 = false ∧
     (nd_find c1_s 0).map Netdev.dev_name = some none ∧
     (nd_find (osmo_netdev_register c1_s 0 c1_oracle_exit_fail).1 0).map Netdev.dev_name =
       some (some "eth0") ∧
     (osmo_netdev_register c1_s 0 c1_oracle_exit_fail).1.netns_ctx_list =
       [⟨0, "blue", 3, 1⟩]) := by
  decide

def c2_nd : Netdev :=
  { nd_id := 0, netns_ctx := some 0, name := "h", ifindex := 5, dev_name := some "eth0",
    netns_name := some "blue", priv_data := 0, registered := true,
    has_ifupdown_ind_cb := false, has_dev_name_chg_cb := false, has_mtu_chg_cb := false,
    if_up := false, if_up_known := false, if_mtu := 0, if_mtu_known := false }

def c2_s : GState :=
  { netns_ctx_list := [⟨0, "blue", 3, 1⟩], netdev_list := [c2_nd], next_ctx_id := 1,
    next_nd_id := 1, trace := [] }

/-- C2 counterexample: on a Registered handle in netns "blue" whose
namespace exit fails with rc -5 after the bracketed call has completed
(setting the result to -ENOTSUP, backend absent), osmo_netdev_ifupdown
returns -5, not -ENOTSUP: the NETDEV_NETNS_EXIT macro's `return rc2` erases
the already-computed result, contradicting the claim. -/
theorem C2_exit_error_replaces_result_counterexample :
    (osmo_netdev_ifupdown c2_s 0 ⟨0, -5⟩ true).2 = -5 ∧
    (osmo_netdev_ifupdown c2_s 0 ⟨0, -5⟩ true).2 ≠ -ENOTSUP := by
  decide

/-- C2 amended: for every interface operation (bring up/down, add address,
add route) on a Registered handle with a set namespace name whose enter
succeeds, if the exit step fails the operation returns the exit error
itself, discarding the bracketed call's -ENOTSUP result; the -ENOTSUP
(backend absent) error is returned exactly when the exit step succeeds. -/
theorem C2_amended_exit_error_returned (s : GState) (nid : Nat) (nd : Netdev) (o : OpOracle)
    (b : Bool) (addr plen dst dplen : Nat) (gw : Option Nat)
    (hfind : nd_find s nid = some nd) (hreg : nd.registered = true)
    (hns : nd.netns_name.isSome = true) (hen : 0 ≤ o.enter_rc) :
    (o.exit_rc < 0 →
      (osmo_netdev_ifupdown s nid o b).2 = o.exit_rc ∧
      (osmo_netdev_add_addr s nid o addr plen).2 = o.exit_rc ∧
      (osmo_netdev_add_route s nid o dst dplen gw).2 = o.exit_rc) ∧
    (0 ≤ o.exit_rc →
      (osmo_netdev_ifupdown s nid o b).2 = -ENOTSUP ∧
      (osmo_netdev_add_addr s nid o addr plen).2 = -ENOTSUP ∧
      (osmo_netdev_add_route s nid o dst dplen gw).2 = -ENOTSUP) := by
  constructor
  · intro hex
    refine ⟨?_, ?_, ?_⟩
    · unfold osmo_netdev_ifupdown
      rw [hfind]
      dsimp only
      rw [if_neg (by simp [hreg]), enter_step_some_ok s nd o.enter_rc hns hen]
      dsimp only
      rw [exit_step_some_fail _ nd o.exit_rc hns hex]
    · unfold osmo_netdev_add_addr
      rw [hfind]
      dsimp only
      rw [if_neg (by simp [hreg]), enter_step_some_ok s nd o.enter_rc hns hen]
      dsimp only
      rw [exit_step_some_fail _ nd o.exit_rc hns hex]
    · unfold osmo_netdev_add_route
      rw [hfind]
      dsimp only
      rw [if_neg (by simp [hreg]), enter_step_some_ok s nd o.enter_rc hns hen]
      dsimp only
      rw [exit_step_some_fail _ nd o.exit_rc hns hex]
  · intro hex
    refine ⟨?_, ?_, ?_⟩
    · unfold osmo_netdev_ifupdown
      rw [hfind]
      dsimp only
      rw [if_neg (by simp [hreg]), enter_step_some_ok s nd o.enter_rc hns hen]
      dsimp only
      rw [exit_step_some_ok _ nd o.exit_rc hns hex]
    · unfold osmo_netdev_add_addr
      rw [hfind]
      dsimp only
      rw [if_neg (by simp [hreg]), enter_step_some_ok s nd o.enter_rc hns hen]
      dsimp only
      rw [exit_step_some_ok _ nd o.exit_rc hns hex]
    · unfold osmo_netdev_add_route
      rw [hfind]
      dsimp only
      rw [if_neg (by simp [hreg]), enter_step_some_ok s nd o.enter_rc hns hen]
      dsimp only
      rw [exit_step_some_ok _ nd o.exit_rc hns hex]

/-- Witness for the amended C2 at a concrete registered handle, once with a
failing exit (both operations return the exit error -5) and once with a
succeeding exit (they return -ENOTSUP). -/
theorem C2_amended_exit_error_returned_witness :
    (nd_find c2_s 0 = some c2_nd ∧ c2_nd.registered = true ∧
     c2_nd.netns_name.isSome = true) ∧
    ((osmo_netdev_ifupdown c2_s 0 ⟨0, -5⟩ true).2 = -5 ∧
     (osmo_netdev_add_addr c2_s 0 ⟨0, -5⟩ 1 24).2 = -5 ∧
     (osmo_netdev_add_route c2_s 0 ⟨0, -5⟩ 2 0 none).2 = -5) ∧
    ((osmo_netdev_ifupdown c2_s 0 ⟨0, 0⟩ true).2 = -ENOTSUP ∧
     (osmo_netdev_add_addr c2_s 0 ⟨0, 0⟩ 1 24).2 = -ENOTSUP ∧
     (osmo_netdev_add_route c2_s 0 ⟨0, 0⟩ 2 0 none).2 = -ENOTSUP) :=
  ⟨⟨by decide, by decide, by decide⟩,
   (C2_amended_exit_error_returned c2_s 0 c2_nd ⟨0, -5⟩ true 1 24 2 0 none (by decide)
     (by decide) (by decide) (by decide)).1 (by decide),
   (C2_amended_exit_error_returned c2_s 0 c2_nd ⟨0, 0⟩ true 1 24 2 0 none (by decide)
     (by decide) (by decide) (by decide)).2 (by decide)⟩

def c3_s : GState :=
  (osmo_netdev_set_netns_name (osmo_netdev_alloc init_state "h").1 0 (some "")).1

def c3_oracle : RegOracle :=
  { ctx_init := { open_fd := 0, enter_rc := 0, exit_rc := 0 },
    enter_rc := -1, resolve := some "eth0", exit_rc := 0 }

/-- C3 counterexample: a handle whose namespace name is SET to the empty
string "" (which the claim counts as denoting the default namespace) is not
guarded by a no-op: during register() the NETDEV_NETNS_ENTER macro (whose
test is netns_name != NULL, not emptiness) attempts a namespace enter on
the empty-name context's invalid fd -1, and the guard fails with -EACCES.
So for an empty-but-set namespace name an enter IS attempted and the guard
CAN fail, refuting the claim for the empty-string case. -/
theorem C3_empty_name_guard_attempts_switch_counterexample :
    (osmo_netdev_register c3_s 0 c3_oracle).2 = -EACCES ∧
    c3_s.trace = [] ∧
    (osmo_netdev_register c3_s 0 c3_oracle).1.trace = [Event.ns_enter (-1)] := by
  decide

/-- C3 amended: the NamespaceSwitchGuard is a no-op exactly when the
namespace name is unset (the NULL pointer, modelled as none): each interface
operation on a Registered handle with unset namespace name returns -ENOTSUP
with the whole state — including the external-call trace — unchanged, for
every enter/exit oracle, so no switch is attempted and the guard cannot
fail.  (When the name is set, even to the empty string, the counterexample
shows a switch is attempted and the guard can fail.) -/
theorem C3_amended_guard_noop_iff_unset (s : GState) (nid : Nat) (nd : Netdev) (o : OpOracle)
    (b : Bool) (addr plen dst dplen : Nat) (gw : Option Nat)
    (hfind : nd_find s nid = some nd) (hreg : nd.registered = true)
    (hns : nd.netns_name = none) :
    osmo_netdev_ifupdown s nid o b = (s, -ENOTSUP) ∧
    osmo_netdev_add_addr s nid o addr plen = (s, -ENOTSUP) ∧
    osmo_netdev_add_route s nid o dst dplen gw = (s, -ENOTSUP) := by
  refine ⟨?_, ?_, ?_⟩
  · unfold osmo_netdev_ifupdown
    rw [hfind]
    dsimp only
    rw [if_neg (by simp [hreg]), enter_step_none s nd o.enter_rc hns]
    dsimp only
    rw [exit_step_none s nd o.exit_rc hns]
  · unfold osmo_netdev_add_addr
    rw [hfind]
    dsimp only
    rw [if_neg (by simp [hreg]), enter_step_none s nd o.enter_rc hns]
    dsimp only
    rw [exit_step_none s nd o.exit_rc hns]
  · unfold osmo_netdev_add_route
    rw [hfind]
    dsimp only
    rw [if_neg (by simp [hreg]), enter_step_none s nd o.enter_rc hns]
    dsimp only
    rw [exit_step_none s nd o.exit_rc hns]

def c3w_nd : Netdev :=
  { nd_id := 0, netns_ctx := some 0, name := "h", ifindex := 5, dev_name := some "eth0",
    netns_name := none, priv_data := 0, registered := true,
    has_ifupdown_ind_cb := false, has_dev_name_chg_cb := false, has_mtu_chg_cb := false,
    if_up := false, if_up_known := false, if_mtu := 0, if_mtu_known := false }

def c3w_s : GState :=
  { netns_ctx_list := [⟨0, "", -1, 1⟩], netdev_list := [c3w_nd], next_ctx_id := 1,
    next_nd_id := 1, trace := [] }

/-- Witness for the amended C3 at a concrete registered handle with unset
namespace name; the oracle would fail both switches, yet the operations
still return -ENOTSUP with the state unchanged because no switch happens. -/
theorem C3_amended_guard_noop_iff_unset_witness :
    (nd_find c3w_s 0 = some c3w_nd ∧ c3w_nd.registered = true ∧
     c3w_nd.netns_name = none) ∧
    (osmo_netdev_ifupdown c3w_s 0 ⟨-1, -1⟩ true = (c3w_s, -ENOTSUP) ∧
     osmo_netdev_add_addr c3w_s 0 ⟨-1, -1⟩ 1 24 = (c3w_s, -ENOTSUP) ∧
     osmo_netdev_add_route c3w_s 0 ⟨-1, -1⟩ 2 0 none = (c3w_s, -ENOTSUP)) :=
  ⟨⟨by decide, by decide, by decide⟩,
   C3_amended_guard_noop_iff_unset c3w_s 0 c3w_nd ⟨-1, -1⟩ true 1 24 2 0 none (by decide)
     (by decide) (by decide)⟩

/-! C5: the shared-context scenario with two handles on one namespace. -/

def c5_ndA (ns : String) : Netdev :=
  { nd_id := 0, netns_ctx := none, name := "A", ifindex := 0, dev_name := none,
    netns_name := some ns, priv_data := 0, registered := false,
    has_ifupdown_ind_cb := false, has_dev_name_chg_cb := false, has_mtu_chg_cb := false,
    if_up := false, if_up_known := false, if_mtu := 0, if_mtu_known := false }

def c5_ndB (ns : String) : Netdev := { c5_ndA ns with nd_id := 1, name := "B" }

def c5_start (ns : String) : GState :=
  { netns_ctx_list := [], netdev_list := [c5_ndA ns, c5_ndB ns], next_ctx_id := 0,
    next_nd_id := 2, trace := [] }

/-- The scenario prefix: allocate A and B, configure both with netns ns. -/
def c5_setup (ns : String) : GState :=
  (osmo_netdev_set_netns_name
    ((osmo_netdev_set_netns_name
      ((osmo_netdev_alloc ((osmo_netdev_alloc init_state "A").1) "B").1) 0 (some ns)).1)
    1 (some ns)).1

def c5_s6 (ns : String) (oA : RegOracle) : GState :=
  (osmo_netdev_register (c5_setup ns) 0 oA).1

def c5_s7 (ns : String) (oA oB : RegOracle) : GState :=
  (osmo_netdev_register (c5_s6 ns oA) 1 oB).1

def c5_s8 (ns : String) (oA oB : RegOracle) : GState :=
  (osmo_netdev_unregister (c5_s7 ns oA oB) 0).1

def c5_s9 (ns : String) (oA oB : RegOracle) : GState :=
  (osmo_netdev_unregister (c5_s8 ns oA oB) 1).1

def c5_rA (ns dnA : String) : Netdev :=
  { c5_ndA ns with netns_ctx := some 0, dev_name := some dnA, registered := true }

def c5_rB (ns dnB : String) : Netdev :=
  { c5_ndB ns with netns_ctx := some 0, dev_name := some dnB, registered := true }

def c5_uA (ns dnA : String) : Netdev :=
  { c5_rA ns dnA with if_up_known := false, if_mtu_known := false, registered := false }

def c5_uB (ns dnB : String) : Netdev :=
  { c5_rB ns dnB with if_up_known := false, if_mtu_known := false, registered := false }

def c5_t6 (fd : Int) : List Event :=
  [Event.ns_enter fd, Event.ns_exit, Event.ns_enter fd, Event.if_resolve 0, Event.ns_exit]

def c5_t7 (fd : Int) : List Event :=
  c5_t6 fd ++ [Event.ns_enter fd, Event.if_resolve 0, Event.ns_exit]

def c5_S6 (ns dnA : String) (fd : Int) : GState :=
  { netns_ctx_list := [⟨0, ns, fd, 1⟩], netdev_list := [c5_rA ns dnA, c5_ndB ns],
    next_ctx_id := 1, next_nd_id := 2, trace := c5_t6 fd }

def c5_S7 (ns dnA dnB : String) (fd : Int) : GState :=
  { c5_S6 ns dnA fd with
      netns_ctx_list := [⟨0, ns, fd, 2⟩],
      netdev_list := [c5_rA ns dnA, c5_rB ns dnB],
      trace := c5_t7 fd }

def c5_S8 (ns dnA dnB : String) (fd : Int) : GState :=
  { c5_S7 ns dnA dnB fd with
      netns_ctx_list := [⟨0, ns, fd, 1⟩],
      netdev_list := [c5_uA ns dnA, c5_rB ns dnB] }

def c5_S9 (ns dnA dnB : String) (fd : Int) : GState :=
  { c5_S8 ns dnA dnB fd with
      netns_ctx_list := [],
      netdev_list := [c5_uA ns dnA, c5_uB ns dnB],
      trace := c5_t7 fd ++ [Event.fd_close fd] }

/-- C5: two handles A and B configured with the same non-empty namespace
name and both successfully registered share exactly one NamespaceContext
(both handles point at context 0 and the pool is the singleton with
refcount 2); unregistering A drops the refcount to 1 with the context still
in the pool and no fd close traced; unregistering B drops it to 0: the
context leaves the pool and the close of its OS fd is traced. -/
theorem C5_shared_context_refcount (ns dnA dnB : String) (oA oB : RegOracle)
    (hns : ns ≠ "")
    (hAfd : 0 ≤ oA.ctx_init.open_fd) (hAen0 : 0 ≤ oA.ctx_init.enter_rc)
    (hAex0 : 0 ≤ oA.ctx_init.exit_rc)
    (hAen : 0 ≤ oA.enter_rc) (hAres : oA.resolve = some dnA) (hAex : 0 ≤ oA.exit_rc)
    (hBen : 0 ≤ oB.enter_rc) (hBres : oB.resolve = some dnB) (hBex : 0 ≤ oB.exit_rc) :
    (osmo_netdev_register (c5_setup ns) 0 oA).2 = 0 ∧
    (osmo_netdev_register (c5_s6 ns oA) 1 oB).2 = 0 ∧
    (c5_s7 ns oA oB).netns_ctx_list = [⟨0, ns, oA.ctx_init.open_fd, 2⟩] ∧
    (nd_find (c5_s7 ns oA oB) 0).map Netdev.netns_ctx = some (some 0) ∧
    (nd_find (c5_s7 ns oA oB) 1).map Netdev.netns_ctx = some (some 0) ∧
    (osmo_netdev_unregister (c5_s7 ns oA oB) 0).2 = 0 ∧
    (c5_s8 ns oA oB).netns_ctx_list = [⟨0, ns, oA.ctx_init.open_fd, 1⟩] ∧
    (c5_s8 ns oA oB).trace = (c5_s7 ns oA oB).trace ∧
    (osmo_netdev_unregister (c5_s8 ns oA oB) 1).2 = 0 ∧
    (c5_s9 ns oA oB).netns_ctx_list = [] ∧
    (c5_s9 ns oA oB).trace = (c5_s8 ns oA oB).trace ++
      [Event.fd_close oA.ctx_init.open_fd] := by
  have hgetA : netdev_netns_ctx_get (c5_start ns) ns oA.ctx_init =
      ({ netns_ctx_list := [⟨0, ns, oA.ctx_init.open_fd, 1⟩],
         netdev_list := [c5_ndA ns, c5_ndB ns], next_ctx_id := 1, next_nd_id := 2,
         trace := [Event.ns_enter oA.ctx_init.open_fd, Event.ns_exit] }, some 0) := by
    rw [ctx_get_fresh_eval (c5_start ns) ns oA.ctx_init rfl hns hAfd hAen0 hAex0
      (fun x hx => absurd hx (List.not_mem_nil x))]
    rfl
  have h6 : osmo_netdev_register (c5_setup ns) 0 oA =
      (c5_S6 ns dnA oA.ctx_init.open_fd, 0) := by
    rw [show c5_setup ns = c5_start ns from rfl]
    rw [register_success_eval (c5_start ns) _ 0 0 (c5_ndA ns) oA ns dnA rfl rfl rfl hgetA
      hAen hAres hAex]
    simp [c5_S6, c5_t6, c5_rA, c5_ndA, c5_ndB, upd_by, ctx_fd, ctx_find_id, find_by,
      List.find?]
  have hfname6 : netdev_netns_ctx_find_by_netns_name (c5_S6 ns dnA oA.ctx_init.open_fd) ns =
      some ⟨0, ns, oA.ctx_init.open_fd, 1⟩ := by
    unfold netdev_netns_ctx_find_by_netns_name
    show List.find? _ [(⟨0, ns, oA.ctx_init.open_fd, 1⟩ : NetnsCtx)] = _
    rw [List.find?_cons_of_pos _ (by simp)]
  have hgetB : netdev_netns_ctx_get (c5_S6 ns dnA oA.ctx_init.open_fd) ns oB.ctx_init =
      ({ c5_S6 ns dnA oA.ctx_init.open_fd with
          netns_ctx_list := [⟨0, ns, oA.ctx_init.open_fd, 2⟩] }, some 0) := by
    rw [ctx_get_found_eval _ ns oB.ctx_init _ hfname6]
    simp [ctx_incref, c5_S6, upd_by]
  have h7 : osmo_netdev_register (c5_S6 ns dnA oA.ctx_init.open_fd) 1 oB =
      (c5_S7 ns dnA dnB oA.ctx_init.open_fd, 0) := by
    rw [register_success_eval (c5_S6 ns dnA oA.ctx_init.open_fd) _ 1 0 (c5_ndB ns) oB ns dnB
      rfl rfl rfl hgetB hBen hBres hBex]
    simp [c5_S6, c5_S7, c5_t6, c5_t7, c5_rA, c5_rB, c5_ndA, c5_ndB, upd_by, ctx_fd,
      ctx_find_id, find_by, List.find?, List.append_assoc]
  have h8 : osmo_netdev_unregister (c5_S7 ns dnA dnB oA.ctx_init.open_fd) 0 =
      (c5_S8 ns dnA dnB oA.ctx_init.open_fd, 0) := by
    rw [unreg_eval_keep (c5_S7 ns dnA dnB oA.ctx_init.open_fd) 0 0 (c5_rA ns dnA)
      ⟨0, ns, oA.ctx_init.open_fd, 2⟩ rfl rfl rfl rfl (by simp)]
    simp [c5_S7, c5_S8, c5_S6, c5_rA, c5_rB, c5_uA, c5_ndA, c5_ndB, upd_by]
  have hfdne : oA.ctx_init.open_fd ≠ -1 := by omega
  have h9 : osmo_netdev_unregister (c5_S8 ns dnA dnB oA.ctx_init.open_fd) 1 =
      (c5_S9 ns dnA dnB oA.ctx_init.open_fd, 0) := by
    rw [unreg_eval_freed (c5_S8 ns dnA dnB oA.ctx_init.open_fd) 1 0 (c5_rB ns dnB)
      ⟨0, ns, oA.ctx_init.open_fd, 1⟩ rfl rfl rfl rfl (by simp)]
    simp [c5_S8, c5_S9, c5_S7, c5_S6, c5_t7, c5_rA, c5_rB, c5_uA, c5_uB, c5_ndA, c5_ndB,
      upd_by, remove_by, hfdne]
  have e6 : c5_s6 ns oA = c5_S6 ns dnA oA.ctx_init.open_fd := by
    unfold c5_s6
    rw [h6]
  have e7 : c5_s7 ns oA oB = c5_S7 ns dnA dnB oA.ctx_init.open_fd := by
    unfold c5_s7
    rw [e6, h7]
  have e8 : c5_s8 ns oA oB = c5_S8 ns dnA dnB oA.ctx_init.open_fd := by
    unfold c5_s8
    rw [e7, h8]
  have e9 : c5_s9 ns oA oB = c5_S9 ns dnA dnB oA.ctx_init.open_fd := by
    unfold c5_s9
    rw [e8, h9]
  refine ⟨?_, ?_, ?_, ?_, ?_, ?_, ?_, ?_, ?_, ?_, ?_⟩
  · rw [h6]
  · rw [e6, h7]
  · rw [e7]
    rfl
  · rw [e7]
    rfl
  · rw [e7]
    rfl
  · rw [e7, h8]
  · rw [e8]
    rfl
  · rw [e8, e7]
    rfl
  · rw [e8, h9]
  · rw [e9]
    rfl
  · rw [e9, e8]
    rfl

def c5w_o : RegOracle :=
  { ctx_init := { open_fd := 3, enter_rc := 0, exit_rc := 0 },
    enter_rc := 0, resolve := some "eth0", exit_rc := 0 }

/-- Witness for C5 at the concrete namespace "blue" with fd 3. -/
theorem C5_shared_context_refcount_witness :
    ("blue" : String) ≠ "" ∧
    ((osmo_netdev_register (c5_setup "blue") 0 c5w_o).2 = 0 ∧
     (osmo_netdev_register (c5_s6 "blue" c5w_o) 1 c5w_o).2 = 0 ∧
     (c5_s7 "blue" c5w_o c5w_o).netns_ctx_list = [⟨0, "blue", 3, 2⟩] ∧
     (nd_find (c5_s7 "blue" c5w_o c5w_o) 0).map Netdev.netns_ctx = some (some 0) ∧
     (nd_find (c5_s7 "blue" c5w_o c5w_o) 1).map Netdev.netns_ctx = some (some 0) ∧
     (osmo_netdev_unregister (c5_s7 "blue" c5w_o c5w_o) 0).2 = 0 ∧
     (c5_s8 "blue" c5w_o c5w_o).netns_ctx_list = [⟨0, "blue", 3, 1⟩] ∧
     (c5_s8 "blue" c5w_o c5w_o).trace = (c5_s7 "blue" c5w_o c5w_o).trace ∧
     (osmo_netdev_unregister (c5_s8 "blue" c5w_o c5w_o) 1).2 = 0 ∧
     (c5_s9 "blue" c5w_o c5w_o).netns_ctx_list = [] ∧
     (c5_s9 "blue" c5w_o c5w_o).trace = (c5_s8 "blue" c5w_o c5w_o).trace ++
       [Event.fd_close 3]) :=
  ⟨by decide,
   C5_shared_context_refcount "blue" "eth0" "eth0" c5w_o c5w_o (by decide) (by decide)
     (by decide) (by decide) (by decide) (by decide) (by decide) (by decide) (by decide)
     (by decide)⟩

end NetdevSpec